import Mathlib

/-!
Verification of the bluespy_codecs audio-codec plugin repository.

This file gives a shallow embedding, in Lean, of the protocol/state-machine
layer of the repository's codec plugins (configuration parsing, RTP header
stripping, sync-byte scanning, sequence/continuity tracking, pool-based
stream registries), translated function-by-function from the C/C++ sources:

  * LDAC.cpp  - context-handle LDAC plugin (RTP sequence tracking, gap
                estimation, sync-byte resynchronization loop);
  * AAC.cpp   - context-handle AAC plugin (RTP sequence tracking variant
                that drops non-positive deltas);
  * LC3.cpp   - context-handle LC3 plugin (LTV configuration parsing,
                per-channel decode dispatch, LE-Audio sequence recording);
  * LC3.c     - fixed-pool LC3 plugin (LTV parsing variant, slot registry);
  * AAC.c     - fixed-pool AAC plugin (slot registry, open error paths);
  * LDAC.c    - fixed-pool LDAC plugin (slot registry, decode pipeline).

Machine integers are modelled as Nat/Int; reads of uint8 data apply `% 256`
(the C payloads are `const uint8_t*`).  uint32 products that the C code can
wrap are reduced `% 2^32`.  Calls into the vendor bitstream decoder
libraries (ldacDecode, FDK-AAC, liblc3), which the repository treats as
opaque external collaborators, are modelled as oracle parameters; everything
the repository itself computes is translated directly.

Bounded loops (`while` with in-body `break`/`continue`) are embedded as
fuel-indexed structural recursions whose fuel is the loop's natural measure
(remaining byte count); fuel-sufficiency lemmas below show the fuel never
runs out before the real loop exits, so the embedding computes exactly the
C loop's result.
-/

namespace BluespyCodecs

/-! ## Shared primitives -/

/-- Read a byte value: payload data is `const uint8_t*` in C, so every read
    is reduced modulo 256. -/
def u8 (n : Nat) : Nat := n % 256

/-- Array indexing `p[i]` over a byte buffer, 0 outside the bounds (all
    theorems below only exercise in-bounds reads, as the C code does). -/
def byteAt (p : List Nat) (i : Nat) : Nat := u8 (p.getD i 0)

/-- Population count (used by the channel-allocation bitmask parsing).
    Fuel-indexed; `natPopcount` below instantiates the fuel with the number
    itself, which always suffices. -/
def popcountAux : Nat → Nat → Nat
  | 0, _ => 0
  | _ + 1, n => if n = 0 then 0 else n % 2 + popcountAux n (n / 2)

def natPopcount (n : Nat) : Nat := popcountAux (n + 1) n

/-- Little-endian 16-bit read `p[0] | (p[1] << 8)` (`read_le16` in
    LC3.cpp). -/
def read_le16 (p : List Nat) : Nat := byteAt p 0 + 256 * byteAt p 1

/-- Little-endian 32-bit read (`read_le32` in LDAC.cpp; LDAC.c builds the
    same value with explicit shifts). -/
def read_le32 (p : List Nat) : Nat :=
  byteAt p 0 + 256 * byteAt p 1 + 65536 * byteAt p 2 + 16777216 * byteAt p 3

/-- The 16-bit rollover normalization shared verbatim by LDAC.cpp and
    AAC.cpp `codec_decode`:

      if (diff < -32768)      diff += 65536;
      else if (diff > 32768)  diff -= 65536;
-/
def normalize_diff (d : Int) : Int :=
  if d < -32768 then d + 65536
  else if 32768 < d then d - 65536
  else d

/-- Modelled from the spec: the sequence-delta normalization as the spec
    words it — "normalize `d` into `(-32768, 32768]` by adding/subtracting
    65536 once if it falls outside that range".  Kept separate from
    `normalize_diff` (the code's behaviour) for comparison. -/
def spec_normalize_diff (d : Int) : Int :=
  if d ≤ -32768 ∨ 32768 < d then
    if d ≤ -32768 then d + 65536 else d - 65536
  else d

/-- Modelled from the spec: the LC3 frame-duration byte mapping as the
    spec words it — "frame duration (1 byte: 0 → 7500us, else →
    10000us)". -/
def spec_duration_code_to_us (code : Nat) : Nat :=
  if code = 0 then 7500 else 10000

/-- Embeds `get_rtp_header_length` (identical in LDAC.cpp and AAC.cpp):
    12 + 4×CSRC-count, or 0 when the payload is too short or the header
    would not leave any payload bytes. -/
def get_rtp_header_length (p : List Nat) : Nat :=
  if p.length < 12 then 0
  else
    let csrc_count := byteAt p 0 % 16
    let header_len := 12 + 4 * csrc_count
    if p.length ≤ header_len then 0 else header_len

/-- Embeds `find_sync_byte` (LDAC.cpp): offset of the first 0xAA byte, or the
    buffer length when absent.  LDAC.c's inline scan loops compute the
    same value. -/
def find_sync_byte : List Nat → Nat
  | [] => 0
  | b :: rest => if u8 b = 170 then 0 else 1 + find_sync_byte rest

/-- The RTP sequence number `(uint16_t)(payload[2] << 8) | payload[3]`. -/
def rtp_seq_of (p : List Nat) : Nat := 256 * byteAt p 2 + byteAt p 3

theorem find_sync_byte_le (l : List Nat) : find_sync_byte l ≤ l.length := by
  induction l with
  | nil => simp [find_sync_byte]
  | cons b rest ih =>
      simp only [find_sync_byte, List.length_cons]
      split
      · omega
      · omega

theorem find_sync_byte_eq_length_iff (l : List Nat) :
    find_sync_byte l = l.length ↔ ∀ b ∈ l, u8 b ≠ 170 := by
  induction l with
  | nil => simp [find_sync_byte]
  | cons b rest ih =>
      simp only [find_sync_byte, List.length_cons, List.mem_cons]
      constructor
      · intro h c hc
        split at h
        · omega
        · rcases hc with hc | hc
          · subst hc; assumption
          · exact (ih.mp (by omega)) c hc
      · intro h
        rw [if_neg (h b (Or.inl rfl))]
        have := ih.mpr (fun c hc => h c (Or.inr hc))
        omega

theorem find_sync_byte_hit (l : List Nat) (h : find_sync_byte l < l.length) :
    u8 (l.getD (find_sync_byte l) 0) = 170 ∧
    ∀ j < find_sync_byte l, u8 (l.getD j 0) ≠ 170 := by
  induction l with
  | nil => simp [find_sync_byte] at h
  | cons b rest ih =>
      by_cases hb : u8 b = 170
      · refine ⟨?_, ?_⟩
        · simp [find_sync_byte, hb]
        · intro j hj
          simp [find_sync_byte, hb] at hj
      · have hx : find_sync_byte (b :: rest) = 1 + find_sync_byte rest := by
          simp [find_sync_byte, hb]
        rw [hx] at h ⊢
        simp only [List.length_cons] at h
        have hrec := ih (by omega)
        refine ⟨?_, ?_⟩
        · rw [Nat.add_comm 1 (find_sync_byte rest)]
          simpa using hrec.1
        · intro j hj
          match j with
          | 0 => simpa using hb
          | j + 1 =>
              have : j < find_sync_byte rest := by omega
              simpa using hrec.2 j this

/-! ## LDAC.cpp — context-handle LDAC plugin -/

namespace LDACcpp

/-- Result of one `ldacDecode` call on the underlying libldacdec decoder
    (an external collaborator): either a negative return (decode error) or
    success with the reported `bytes_consumed` (an `int` in C) and the
    decoder-state frame geometry `frame.frameSamples` /
    `frame.channelCount` read back after the call. -/
inductive LdacDecRes where
  | err : LdacDecRes
  | ok (bytes_consumed : Int) (frameSamples frameChannels : Nat) : LdacDecRes

/-- Oracle for the external decoder: the outcome of `ldacDecode` as a
    function of the bytes at the current frame cursor. -/
def LdacOracle := List Nat → LdacDecRes

/-- Embeds `PCM_BUFFER_SAMPLES` in LDAC.cpp. -/
def PCM_BUFFER_SAMPLES : Nat := 8192

/-- The LDAC.cpp decode loop (`codec_decode` lines 339-374), fuel-indexed.

      while (remaining > 0 && total_samples < max_samples) {
        result = ldacDecode(...);
        if (result < 0) { resync via find_sync_byte(frame+1, remaining-1)
                          or break; continue; }
        if (bytes_consumed <= 0) break;
        if ((uint32_t)bytes_consumed > remaining) break;
        advance; total_samples += frameSamples * channelCount;
      }

    `frame` is the remaining byte suffix; each continuing iteration strictly
    shortens it, so fuel `frame.length` (used by `ldacCpp_decode_loop`)
    always suffices (`ldacCpp_decode_loopAux_fuel` below). -/
def ldacCpp_decode_loopAux (oracle : LdacOracle) :
    Nat → List Nat → Nat → Nat
  | 0, _, total => total
  | fuel + 1, frame, total =>
    if frame.length = 0 ∨ PCM_BUFFER_SAMPLES ≤ total then total
    else
      match oracle frame with
      | .err =>
          let resync_offset := find_sync_byte (frame.drop 1)
          if frame.length - 1 ≤ resync_offset then total
          else ldacCpp_decode_loopAux oracle fuel
                 (frame.drop (1 + resync_offset)) total
      | .ok bytes_consumed frameSamples frameChannels =>
          if bytes_consumed ≤ 0 then total
          else if frame.length < bytes_consumed.toNat then total
          else ldacCpp_decode_loopAux oracle fuel
                 (frame.drop bytes_consumed.toNat)
                 (total + frameSamples * frameChannels)

def ldacCpp_decode_loop (oracle : LdacOracle) (frame : List Nat)
    (total : Nat) : Nat :=
  ldacCpp_decode_loopAux oracle frame.length frame total

/-- Embeds `LDAC_stream` (LDAC.cpp): the fields driving the protocol logic.  The
    embedded `ldacdec_t` decoder instance and the PCM scratch buffer are
    external-collaborator state and are represented by the oracle. -/
structure Stream where
  inited : Bool
  has_last_seq : Bool
  last_rtp_seq : Nat
  samples_per_packet : Nat
  sample_rate : Nat
  channels : Nat
deriving DecidableEq

/-- One `bluespy_add_audio(pcm, byte_len, event_id, missing)` host
    callback; `pcm_bytes = none` models a NULL pcm pointer with
    `byte_len = 0`. -/
structure AudioCallback where
  pcm_bytes : Option Nat
  missing_samples : Nat
deriving DecidableEq

/-- Per-call environment: the decoder oracle plus the values
    `ldacdecGetSampleRate` / `ldacdecGetChannelCount` report after a
    successful decode. -/
structure Env where
  oracle : LdacOracle
  post_sample_rate : Nat
  post_channels : Nat

/-- Net result of one `codec_decode` call: the new stream state, the local
    `missing_samples` and `total_samples` variables, and the host callback
    performed (if any). -/
structure StepOut where
  state : Stream
  missing : Nat
  total : Nat
  callback : Option AudioCallback
deriving DecidableEq

/-- Embeds `codec_decode` (LDAC.cpp lines 280-389), translated clause by clause:
    guards, RTP sequence extraction and gap computation, sequence-state
    update, RTP header strip, sync scan, decode loop, running
    samples-per-packet estimate update, and host delivery. -/
def codec_decode (env : Env) (st : Stream) (payload : List Nat) : StepOut :=
  if ¬ st.inited then ⟨st, 0, 0, none⟩
  else if payload.length < 20 then ⟨st, 0, 0, none⟩
  else
    let rtp_seq := rtp_seq_of payload
    let missing :=
      if st.has_last_seq then
        let diff := normalize_diff ((rtp_seq : Int) - (st.last_rtp_seq : Int))
        if 1 < diff then
          ((diff - 1).toNat * st.samples_per_packet) % 2 ^ 32
        else 0
      else 0
    let st1 := { st with last_rtp_seq := rtp_seq, has_last_seq := true }
    let rtp_len := get_rtp_header_length payload
    if rtp_len = 0 then ⟨st1, missing, 0, none⟩
    else
      let frame := payload.drop rtp_len
      let sync_offset := find_sync_byte frame
      if frame.length ≤ sync_offset then ⟨st1, missing, 0, none⟩
      else
        let total := ldacCpp_decode_loop env.oracle (frame.drop sync_offset) 0
        if 0 < total then
          let st2 := { st1 with
            samples_per_packet := total / st1.channels,
            sample_rate := env.post_sample_rate,
            channels := env.post_channels }
          ⟨st2, missing, total, some ⟨some (total * 2), missing⟩⟩
        else if 0 < missing then ⟨st1, missing, 0, some ⟨none, missing⟩⟩
        else ⟨st1, missing, 0, none⟩

/-- Embeds `is_ldac_config` (LDAC.cpp): vendor-specific codec type with Sony
    vendor id 0x12D and LDAC codec id 0xAA in the codec-specific info. -/
structure MediaCodecCap where
  Media_Codec_Type : Nat
  info : List Nat
deriving DecidableEq

def is_ldac_config (cap : MediaCodecCap) : Bool :=
  cap.Media_Codec_Type = 255 ∧ read_le32 cap.info = 301 ∧ byteAt cap.info 4 = 170

/-- Embeds `parse_sample_rate` (LDAC.cpp): priority-ordered frequency bits in
    config byte 0, bits 5-0. -/
def parse_sample_rate (config : List Nat) : Nat :=
  let freq_bits := byteAt config 0 % 64
  if freq_bits &&& 32 ≠ 0 then 96000
  else if freq_bits &&& 16 ≠ 0 then 88200
  else if freq_bits &&& 8 ≠ 0 then 48000
  else if freq_bits &&& 4 ≠ 0 then 44100
  else 48000

/-- Embeds `parse_channels` (LDAC.cpp): channel-mode field in config byte 0 bits
    7-6; mode 2 is mono, everything else stereo. -/
def parse_channels (config : List Nat) : Nat :=
  let ch_mode := byteAt config 0 / 64 % 4
  if ch_mode = 2 then 1 else 2

/-- The transport container of a `bluespy_audio_codec_info`. -/
inductive Container where
  | AVDTP | CIS | BIS | other
deriving DecidableEq

/-- Embeds `bluespy_audio_codec_info` as consumed by the context-handle plugins:
    container tag, the AVDTP media-codec capability (none models a NULL
    `info->config`), and `config_len`. -/
structure CodecInfo where
  container : Container
  cap : Option MediaCodecCap
  config_len : Nat
deriving DecidableEq

/-- Embeds `BLUESPY_ID_INVALID`: the reserved all-ones 64-bit stream id used as
    the capability-probe sentinel. -/
def BLUESPY_ID_INVALID : Nat := 2 ^ 64 - 1

/-- Result of `new_codec_stream`: the error code, the reported format, and
    whether a heap-allocated stream context was returned
    (`context_handle != 0`). -/
structure InitRet where
  error : Int
  sample_rate : Nat
  n_channels : Nat
  allocated : Bool
deriving DecidableEq

/-- Embeds `new_codec_stream` (LDAC.cpp lines 212-278).  `alloc_ok` models the
    `calloc` outcome and `decInit_ok` the `ldacdecInit` outcome (external
    collaborators). -/
def new_codec_stream (alloc_ok decInit_ok : Bool) (stream_id : Nat)
    (info : Option CodecInfo) : InitRet :=
  match info with
  | none => ⟨-1, 0, 0, false⟩
  | some i =>
    if i.container ≠ Container.AVDTP then ⟨-1, 0, 0, false⟩
    else
      match i.cap with
      | none => ⟨-1, 0, 0, false⟩
      | some cap =>
        if ¬ is_ldac_config cap then ⟨-1, 0, 0, false⟩
        else if i.config_len < 6 then ⟨-2, 0, 0, false⟩
        else if stream_id = BLUESPY_ID_INVALID then ⟨0, 0, 0, false⟩
        else if ¬ alloc_ok then ⟨-3, 0, 0, false⟩
        else if ¬ decInit_ok then ⟨-4, 0, 0, false⟩
        else ⟨0, parse_sample_rate cap.info, parse_channels cap.info, true⟩

/-- Fuel-sufficiency: the decode loop's value does not depend on the fuel
    once the fuel covers the remaining byte count, because every continuing
    iteration strictly shortens the frame. -/
theorem ldacCpp_decode_loopAux_fuel (oracle : LdacOracle) :
    ∀ f1 f2 frame total, frame.length ≤ f1 → frame.length ≤ f2 →
      ldacCpp_decode_loopAux oracle f1 frame total =
      ldacCpp_decode_loopAux oracle f2 frame total := by
  intro f1
  induction f1 with
  | zero =>
      intro f2 frame total h1 _
      have hf : frame.length = 0 := Nat.le_zero.mp h1
      cases f2 with
      | zero => rfl
      | succ f2 =>
          simp [ldacCpp_decode_loopAux, hf]
  | succ f1 ih =>
      intro f2 frame total h1 h2
      cases f2 with
      | zero =>
          have hf : frame.length = 0 := Nat.le_zero.mp h2
          simp [ldacCpp_decode_loopAux, hf]
      | succ f2 =>
          show ldacCpp_decode_loopAux oracle (f1 + 1) frame total =
               ldacCpp_decode_loopAux oracle (f2 + 1) frame total
          simp only [ldacCpp_decode_loopAux]
          split
          · rfl
          · rename_i hcond
            have hpos : 0 < frame.length := by
              rcases Nat.eq_zero_or_pos frame.length with h | h
              · exact absurd (Or.inl h) hcond
              · exact h
            split
            · split
              · rfl
              · apply ih
                · simp only [List.length_drop]; omega
                · simp only [List.length_drop]; omega
            · split
              · rfl
              · split
                · rfl
                · rename_i hbc hlen
                  apply ih
                  · simp only [List.length_drop]; omega
                  · simp only [List.length_drop]; omega

end LDACcpp

/-! ## AAC.cpp — context-handle AAC plugin -/

namespace AACcpp

/-- Net effect of AAC.cpp's inner FDK-AAC fill/decode loop (`codec_decode`
    lines 284-315) on the claim-relevant state, as a function of the
    post-RTP bytes.  The loop drives the external FDK-AAC decoder
    (`aacDecoder_Fill` / `aacDecoder_DecodeFrame` /
    `aacDecoder_GetStreamInfo`); its repository-side net effect is the
    accumulated `total_samples`, the `frames_in_this_packet` count, and the
    last frame's `frameSize` (written into `samples_per_frame` on every
    successfully decoded frame). -/
structure DecSummary where
  total_samples : Nat
  frames_in_this_packet : Nat
  last_frame_size : Nat
deriving DecidableEq

def AacOracle := List Nat → DecSummary

/-- Embeds `AAC_stream` (AAC.cpp): the protocol-layer fields.  The
    FDK-AAC handle is external; `has_decoder` models `stream->decoder !=
    NULL`. -/
structure Stream where
  inited : Bool
  has_decoder : Bool
  has_last_seq : Bool
  last_rtp_seq : Nat
  frames_per_packet : Nat
  samples_per_frame : Nat
deriving DecidableEq

structure StepOut where
  state : Stream
  missing : Nat
  callback : Option LDACcpp.AudioCallback
deriving DecidableEq

/-- Embeds `codec_decode` (AAC.cpp lines 207-327): guards, RTP sequence
    extraction, rollover normalization, the early `return` on a
    non-positive delta (frame treated as stale and dropped before
    `last_rtp_seq` is updated), gap computation, RTP header strip, decode,
    heuristic updates and host delivery. -/
def codec_decode (oracle : AacOracle) (st : Stream) (payload : List Nat) :
    StepOut :=
  if ¬ st.inited ∨ ¬ st.has_decoder then ⟨st, 0, none⟩
  else if payload.length < 12 then ⟨st, 0, none⟩
  else
    let rtp_seq := rtp_seq_of payload
    let diff := normalize_diff ((rtp_seq : Int) - (st.last_rtp_seq : Int))
    if st.has_last_seq ∧ diff ≤ 0 then ⟨st, 0, none⟩
    else
      let missing :=
        if st.has_last_seq ∧ 1 < diff then
          ((diff - 1).toNat * st.frames_per_packet * st.samples_per_frame)
            % 2 ^ 32
        else 0
      let st1 := { st with last_rtp_seq := rtp_seq, has_last_seq := true }
      let rtp_header_len := get_rtp_header_length payload
      if rtp_header_len = 0 then ⟨st1, missing, none⟩
      else
        let res := oracle (payload.drop rtp_header_len)
        let st2 :=
          if 0 < res.frames_in_this_packet then
            { st1 with
              frames_per_packet := res.frames_in_this_packet,
              samples_per_frame := res.last_frame_size }
          else st1
        if 0 < res.total_samples then
          ⟨st2, missing, some ⟨some (res.total_samples * 2), missing⟩⟩
        else if 0 < missing then ⟨st2, missing, some ⟨none, missing⟩⟩
        else ⟨st2, missing, none⟩

end AACcpp

/-! ## LC3.cpp — context-handle LC3 plugin -/

namespace LC3cpp

/-- Embeds `LC3_config` (LC3.cpp). -/
structure Config where
  sample_rate_hz : Nat
  frame_duration_us : Nat
  octets_per_frame : Nat
  channels : Nat
deriving DecidableEq

/-- Embeds `config_set_defaults` (LC3.cpp): 48000 Hz, 10000 us, 100
    octets, 1 channel. -/
def config_set_defaults : Config := ⟨48000, 10000, 100, 1⟩

/-- Embeds `freq_code_to_hz` (LC3.cpp): LC3 sampling-frequency code table,
    unknown codes defaulting to 48000. -/
def freq_code_to_hz (code : Nat) : Nat :=
  if code = 1 then 8000
  else if code = 2 then 11025
  else if code = 3 then 16000
  else if code = 4 then 22050
  else if code = 5 then 24000
  else if code = 6 then 32000
  else if code = 7 then 44100
  else if code = 8 then 48000
  else 48000

/-- Embeds `duration_code_to_us` (LC3.cpp):
    `(code == LC3_DUR_10000US) ? 10000 : 7500` with `LC3_DUR_10000US = 1`. -/
def duration_code_to_us (code : Nat) : Nat :=
  if code = 1 then 10000 else 7500

/-- Embeds `popcount_bytes` (LC3.cpp): little-endian mask from at most four
    bytes (`i < sizeof(mask)`), then a population count. -/
def popcount_bytes (v : List Nat) : Nat :=
  natPopcount (((v.take 4).enum.map (fun p => u8 p.2 * 256 ^ p.1)).sum)

/-- The LTV parse loop of `parse_ltv_config` (LC3.cpp lines 214-267),
    fuel-indexed (fuel: length of the unparsed suffix; each iteration
    strictly shortens it).

      while (p + 2 <= end) {
        len = p[0]; type = p[1];
        if (len == 0 || p + 1 + len > end) break;
        value = p + 2; value_len = len - 1;
        switch (type) ... ;
        p += 1 + len;
      }
-/
def parse_ltv_loopAux : Nat → Config → List Nat → Config
  | 0, cfg, _ => cfg
  | fuel + 1, cfg, ltv =>
    match ltv with
    | len0 :: ty0 :: rest =>
      let len := u8 len0
      let ty := u8 ty0
      if len = 0 ∨ rest.length + 1 < len then cfg
      else
        let value := rest.take (len - 1)
        let value_len := len - 1
        let cfg1 :=
          if ty = 1 then
            if 1 ≤ value_len then
              { cfg with sample_rate_hz := freq_code_to_hz (byteAt value 0) }
            else cfg
          else if ty = 2 then
            if 1 ≤ value_len then
              { cfg with
                frame_duration_us := duration_code_to_us (byteAt value 0) }
            else cfg
          else if ty = 3 then
            if 1 ≤ value_len then
              let ch := popcount_bytes value
              { cfg with channels := if 0 < ch then ch else 1 }
            else cfg
          else if ty = 4 then
            if 2 ≤ value_len then
              { cfg with octets_per_frame := read_le16 value }
            else if value_len = 1 then
              { cfg with octets_per_frame := byteAt value 0 }
            else cfg
          else cfg
        parse_ltv_loopAux fuel cfg1 (rest.drop (len - 1))
    | _ => cfg

/-- Embeds `parse_ltv_config` (LC3.cpp): defaults, then the LTV loop. -/
def parse_ltv_config (ltv : List Nat) : Config :=
  parse_ltv_loopAux ltv.length config_set_defaults ltv

/-- Embeds `LC3_stream` (LC3.cpp): configuration, derived frame geometry,
    and the LE-Audio sequence-tracking fields `last_seq` / `have_seq`. -/
structure Stream where
  config : Config
  samples_per_frame : Nat
  pcm_buffer_bytes : Nat
  last_seq : Nat
  have_seq : Bool
deriving DecidableEq

/-- What `codec_decode` feeds one channel's `lc3_decode` call: a NULL
    frame (built-in packet-loss concealment) when the channel's chunk
    starts past the payload, or the chunk at `offset = ch *
    octets_per_frame` truncated to the remaining length. -/
inductive ChannelFeed where
  | plc (octets : Nat)
  | data (offset bytes : Nat)
deriving DecidableEq

/-- The per-channel dispatch of `codec_decode` (LC3.cpp lines 525-548). -/
def channel_feeds (channels octets payload_len : Nat) : List ChannelFeed :=
  (List.range channels).map fun ch =>
    let offset := ch * octets
    if payload_len ≤ offset then ChannelFeed.plc octets
    else ChannelFeed.data offset (min (payload_len - offset) octets)

/-- Embeds `codec_decode` (LC3.cpp lines 508-556): guard, per-channel
    decode into the interleaved buffer, unconditional host delivery of
    `pcm_buffer_bytes` bytes with `missing = 0`, then the unconditional
    sequence-state update `last_seq = sequence_number`. -/
def codec_decode (st : Stream) (payload : List Nat)
    (sequence_number : Nat) :
    Stream × Option LDACcpp.AudioCallback × List ChannelFeed :=
  if payload.length = 0 then (st, none, [])
  else
    ({ st with last_seq := sequence_number, have_seq := true },
     some ⟨some st.pcm_buffer_bytes, 0⟩,
     channel_feeds st.config.channels st.config.octets_per_frame
       payload.length)

end LC3cpp

/-! ## LC3.c — fixed-pool LC3 plugin -/

namespace LC3c

/-- The configuration fields of an `LC3Handle` written by
    `parse_lea_configuration` (LC3.c). -/
structure LeaCfg where
  sample_rate_hz : Nat
  frame_duration_us : Nat
  channels : Nat
  bytes_per_channel : Nat
deriving DecidableEq

/-- Defaults installed by `parse_lea_configuration` before its loop. -/
def lea_defaults : LeaCfg := ⟨48000, 10000, 1, 60⟩

/-- Embeds `lea_decode_sampling_freq` (LC3.c); note this table, unlike
    LC3.cpp's, lacks entries for codes 2 and 4. -/
def lea_decode_sampling_freq (val : Nat) : Nat :=
  if val = 1 then 8000
  else if val = 3 then 16000
  else if val = 5 then 24000
  else if val = 6 then 32000
  else if val = 7 then 44100
  else if val = 8 then 48000
  else 48000

/-- Embeds `count_bits` (LC3.c): little-endian mask then popcount.  The C
    loop shifts `data[i] << (i*8)` into a uint32 for every i below the
    value length; shifts at i ≥ 4 exceed the 32-bit width (undefined in C,
    and unreachable for the ≤ 4-byte channel-allocation masks this is
    called on), so the defined prefix of four bytes is modelled. -/
def count_bits (v : List Nat) : Nat :=
  natPopcount (((v.take 4).enum.map (fun p => u8 p.2 * 256 ^ p.1)).sum)

/-- The TLV loop of `parse_lea_configuration` (LC3.c lines 90-129),
    fuel-indexed.  Unlike LC3.cpp's loop it does not stop on a zero
    length byte (it just advances one byte), and its type-3 branch has no
    value-length guard. -/
def parse_lea_loopAux : Nat → LeaCfg → List Nat → LeaCfg
  | 0, cfg, _ => cfg
  | fuel + 1, cfg, tlv =>
    match tlv with
    | len0 :: ty0 :: rest =>
      let len := u8 len0
      let ty := u8 ty0
      if rest.length + 1 < len then cfg
      else
        let vlen := if 1 < len then len - 1 else 0
        let value := rest.take vlen
        let cfg1 :=
          if ty = 1 then
            if 1 ≤ vlen then
              { cfg with
                sample_rate_hz := lea_decode_sampling_freq (byteAt value 0) }
            else cfg
          else if ty = 2 then
            if 1 ≤ vlen then
              { cfg with
                frame_duration_us :=
                  if byteAt value 0 = 1 then 10000 else 7500 }
            else cfg
          else if ty = 3 then
            let ch := count_bits value
            { cfg with channels := if ch = 0 then 1 else ch }
          else if ty = 4 then
            if 2 ≤ vlen then
              { cfg with bytes_per_channel := read_le16 value }
            else if vlen = 1 then
              { cfg with bytes_per_channel := byteAt value 0 }
            else cfg
          else cfg
        parse_lea_loopAux fuel cfg1 ((ty0 :: rest).drop len)
    | _ => cfg

/-- Embeds `parse_lea_configuration` (LC3.c lines 78-130). -/
def parse_lea_configuration (tlv : List Nat) : LeaCfg :=
  parse_lea_loopAux tlv.length lea_defaults tlv

/-- Embeds `LC3Handle` (LC3.c): a slot of the `handles[MAX_STREAMS]` pool.
    `pcm_alloc` models `pcm_buffer != NULL`; the per-channel liblc3
    decoder instances are external. -/
structure Slot where
  in_use : Bool
  stream_id : Nat
  cfg : LeaCfg
  samples_per_frame : Nat
  pcm_alloc : Bool
deriving DecidableEq

/-- A zeroed slot (the pool is a zero-initialised static array, and
    allocation `memset`s the slot). -/
def emptySlot : Slot := ⟨false, 0, ⟨0, 0, 0, 0⟩, 0, false⟩

def MAX_STREAMS : Nat := 16

def MAX_CHANNELS : Nat := 8

/-- Embeds `find_or_allocate_handle` (LC3.c lines 31-46): linear scan for
    an in-use slot with the same id, else claim the first free slot
    (zeroing it and marking it in use). -/
def find_or_allocate_handle (pool : List Slot) (id : Nat) :
    Option Nat × List Slot :=
  match pool.findIdx? (fun s => s.in_use && s.stream_id == id) with
  | some i => (some i, pool)
  | none =>
    match pool.findIdx? (fun s => !s.in_use) with
    | some i =>
        (some i, pool.set i { emptySlot with in_use := true, stream_id := id })
    | none => (none, pool)

/-- External liblc3 outcomes consumed by `new_codec_stream`:
    `lc3_decoder_size`, `lc3_frame_samples`, the PCM `calloc`, and the
    per-channel `lc3_setup_decoder` calls. -/
structure Env where
  dec_size : Nat
  frame_samples : Nat
  calloc_ok : Bool
  setup_ok : Bool

/-- Embeds `new_codec_stream` (LC3.c lines 140-194).  Note that the error
    paths after `find_or_allocate_handle` return with the claimed slot
    still marked in use. -/
def new_codec_stream (env : Env) (pool : List Slot) (id : Nat)
    (container : LDACcpp.Container) (config : List Nat) :
    List Slot × Int :=
  if config.length < 7 then (pool, -1)
  else if container ≠ LDACcpp.Container.CIS ∧
          container ≠ LDACcpp.Container.BIS then (pool, -1)
  else
    match find_or_allocate_handle pool id with
    | (none, pool1) => (pool1, -1)
    | (some i, pool1) =>
      let parsed := parse_lea_configuration (config.drop 6)
      let parsed :=
        if MAX_CHANNELS < parsed.channels then
          { parsed with channels := MAX_CHANNELS }
        else parsed
      let slot := { (pool1.getD i emptySlot) with cfg := parsed }
      let pool2 := pool1.set i slot
      if env.dec_size = 0 then (pool2, -2)
      else
        let slot := { slot with samples_per_frame := env.frame_samples }
        let pool3 := pool1.set i slot
        if ¬ env.calloc_ok then (pool3, -3)
        else
          let slot := { slot with pcm_alloc := true }
          let pool4 := pool1.set i slot
          if ¬ env.setup_ok then (pool4, -5)
          else (pool4, 0)

/-- Embeds `codec_decode` (LC3.c lines 212-239): `find_or_allocate_handle`
    (which claims a fresh slot for an unknown id), the
    channels/payload guard, per-channel `lc3_decode` dispatch (each chunk
    at `c * bytes_per_channel`, truncated to
    `min(payload_len, bytes_per_channel)`), and the
    `bluespy_add_decoded_audio` delivery of the full interleaved buffer.
    Returns the updated pool, the delivered byte count (none when the
    guard returned early), and the per-channel chunks fed to liblc3. -/
def codec_decode (pool : List Slot) (id : Nat) (payload : List Nat) :
    List Slot × Option Nat × List (Nat × Nat) :=
  match find_or_allocate_handle pool id with
  | (none, pool1) => (pool1, none, [])
  | (some i, pool1) =>
    let h := pool1.getD i emptySlot
    if h.cfg.channels = 0 ∨ payload.length = 0 then (pool1, none, [])
    else
      let feeds := (List.range h.cfg.channels).map fun c =>
        (c * h.cfg.bytes_per_channel,
         min payload.length h.cfg.bytes_per_channel)
      (pool1, some (h.samples_per_frame * h.cfg.channels * 2), feeds)

/-- Embeds `codec_deinit` (LC3.c lines 196-210): free and zero the slot
    whose id matches (a plain find, no allocation). -/
def codec_deinit (pool : List Slot) (id : Nat) : List Slot :=
  match pool.findIdx? (fun s => s.in_use && s.stream_id == id) with
  | some i => pool.set i emptySlot
  | none => pool

end LC3c

/-! ## AAC.c — fixed-pool AAC plugin -/

namespace AACc

/-- Embeds `AAC_handle` (AAC.c): a slot of the `handles[MAX_STREAMS]`
    pool; `aac_open` models `handle->aac != NULL`. -/
structure Slot where
  in_use : Bool
  stream_id : Nat
  aac_open : Bool
  sequence_number : Nat
deriving DecidableEq

/-- A free slot of the zero-initialised static pool. -/
def emptySlot : Slot := ⟨false, 0, false, 0⟩

def MAX_STREAMS : Nat := 16

/-- Embeds `get_handle` (AAC.c lines 35-55): find the in-use slot with
    this id, else claim the first free slot (`aac = NULL`,
    `sequence_number = -1`). -/
def get_handle (pool : List Slot) (id : Nat) : Option Nat × List Slot :=
  match pool.findIdx? (fun s => s.in_use && s.stream_id == id) with
  | some i => (some i, pool)
  | none =>
    match pool.findIdx? (fun s => !s.in_use) with
    | some i =>
        (some i,
         pool.set i ⟨true, id, false, 2 ^ 32 - 1⟩)
    | none => (none, pool)

/-- External FDK-AAC outcomes consumed by `new_codec_stream`. -/
structure Env where
  open_ok : Bool
  setparam_min_ok : Bool
  setparam_max_ok : Bool

structure InitRes where
  pool : List Slot
  error : Int
  sample_rate : Nat
  n_channels : Nat
deriving DecidableEq

/-- Embeds `new_codec_stream` (AAC.c lines 57-143): codec-type and length
    checks, `get_handle` slot claim, the priority-ordered sample-rate
    bitmask across config bytes 1-2, the channel bit, decoder open and the
    two `aacDecoder_SetParam` calls.  Note that every error return after
    `get_handle` leaves the claimed slot in use. -/
def new_codec_stream (env : Env) (pool : List Slot) (id : Nat)
    (cap : LDACcpp.MediaCodecCap) (config_len : Nat) : InitRes :=
  if cap.Media_Codec_Type ≠ 2 then ⟨pool, -1, 0, 0⟩
  else if config_len < 6 then ⟨pool, -2, 0, 0⟩
  else
    match get_handle pool id with
    | (none, pool1) => ⟨pool1, -10, 0, 0⟩
    | (some i, pool1) =>
      let sample_rate_ls := byteAt cap.info 1
      let chan_sample_rate := byteAt cap.info 2
      let rate :=
        if sample_rate_ls &&& 128 ≠ 0 then some 8000
        else if sample_rate_ls &&& 64 ≠ 0 then some 11025
        else if sample_rate_ls &&& 32 ≠ 0 then some 12000
        else if sample_rate_ls &&& 16 ≠ 0 then some 16000
        else if sample_rate_ls &&& 8 ≠ 0 then some 22050
        else if sample_rate_ls &&& 4 ≠ 0 then some 24000
        else if sample_rate_ls &&& 2 ≠ 0 then some 32000
        else if sample_rate_ls &&& 1 ≠ 0 then some 44100
        else if chan_sample_rate &&& 128 ≠ 0 then some 48000
        else if chan_sample_rate &&& 64 ≠ 0 then some 64000
        else if chan_sample_rate &&& 32 ≠ 0 then some 88200
        else if chan_sample_rate &&& 16 ≠ 0 then some 96000
        else none
      match rate with
      | none => ⟨pool1, -3, 0, 0⟩
      | some sample_rate =>
        let channels :=
          if chan_sample_rate &&& 4 ≠ 0 then some 2
          else if chan_sample_rate &&& 8 ≠ 0 then some 1
          else none
        match channels with
        | none => ⟨pool1, -4, sample_rate, 0⟩
        | some n_channels =>
          let slot := { (pool1.getD i emptySlot) with aac_open := env.open_ok }
          let pool2 := pool1.set i slot
          if ¬ env.setparam_min_ok then ⟨pool2, -5, sample_rate, n_channels⟩
          else if ¬ env.setparam_max_ok then
            ⟨pool2, -6, sample_rate, n_channels⟩
          else ⟨pool2, 0, sample_rate, n_channels⟩

/-- Embeds `codec_deinit` (AAC.c lines 145-152).  It calls `get_handle`
    (so it can itself claim a slot for an unknown id), and only releases
    the slot when `handle->aac` is non-NULL. -/
def codec_deinit (pool : List Slot) (id : Nat) : List Slot :=
  match get_handle pool id with
  | (none, pool1) => pool1
  | (some i, pool1) =>
    let h := pool1.getD i emptySlot
    if h.aac_open then pool1.set i { h with aac_open := false, in_use := false }
    else pool1

end AACc

/-! ## LDAC.c — fixed-pool LDAC plugin -/

namespace LDACc

/-- Embeds `LDAC_handle` (LDAC.c): a slot of the `handles[MAX_STREAMS]`
    pool.  The `ldacdec_t` decoder state is external. -/
structure Slot where
  in_use : Bool
  stream_id : Nat
  inited : Bool
  sample_rate : Nat
  n_channels : Nat
  sequence_number : Nat
deriving DecidableEq

def emptySlot : Slot := ⟨false, 0, false, 0, 0, 0⟩

def MAX_STREAMS : Nat := 16

/-- Embeds `get_handle` (LDAC.c lines 25-46): find the in-use slot with
    this id, else claim the first free slot (uninitialised decoder state,
    `sequence_number = -1`). -/
def get_handle (pool : List Slot) (id : Nat) : Option Nat × List Slot :=
  match pool.findIdx? (fun s => s.in_use && s.stream_id == id) with
  | some i => (some i, pool)
  | none =>
    match pool.findIdx? (fun s => !s.in_use) with
    | some i =>
        (some i,
         pool.set i ⟨true, id, false, 0, 0, 2 ^ 32 - 1⟩)
    | none => (none, pool)

structure InitRes where
  pool : List Slot
  error : Int
  sample_rate : Nat
  n_channels : Nat
deriving DecidableEq

/-- Embeds `new_codec_stream` (LDAC.c lines 48-122): vendor-id match,
    length check, `get_handle` slot claim (`error = -10` — "too many
    concurrent streams" — when the pool is full), sample-rate and
    channel-mode parsing, `ldacdecInit` (releasing the slot on failure),
    and slot initialisation.  There is no probe-sentinel check: every id,
    including `BLUESPY_ID_INVALID`, goes through `get_handle`. -/
def new_codec_stream (decInit_ok : Bool) (pool : List Slot) (id : Nat)
    (cap : LDACcpp.MediaCodecCap) (avdtp_len : Nat) : InitRes :=
  if cap.Media_Codec_Type ≠ 255 then ⟨pool, -1, 0, 0⟩
  else if ¬ (read_le32 cap.info = 301 ∧ byteAt cap.info 4 = 170) then
    ⟨pool, -1, 0, 0⟩
  else if avdtp_len < 2 then ⟨pool, -2, 0, 0⟩
  else
    match get_handle pool id with
    | (none, pool1) => ⟨pool1, -10, 0, 0⟩
    | (some i, pool1) =>
      let freq_bits := byteAt cap.info 0 % 64
      let ch_mode := byteAt cap.info 0 / 64 % 4
      let sample_rate :=
        if freq_bits &&& 32 ≠ 0 then 96000
        else if freq_bits &&& 16 ≠ 0 then 88200
        else if freq_bits &&& 8 ≠ 0 then 48000
        else if freq_bits &&& 4 ≠ 0 then 44100
        else 48000
      let n_channels := if ch_mode = 2 then 1 else 2
      if ¬ decInit_ok then
        let h := pool1.getD i emptySlot
        ⟨pool1.set i { h with in_use := false }, -1, sample_rate, n_channels⟩
      else
        ⟨pool1.set i ⟨true, id, true, sample_rate, n_channels, 2 ^ 32 - 1⟩,
         0, sample_rate, n_channels⟩

/-- The LDAC.c decode loop (`codec_decode` lines 180-218), fuel-indexed.
    It differs from LDAC.cpp's loop in checking the PCM bound only after
    accumulating a frame (32768-sample `pcm_buf`), but has the same
    resync-on-error structure. -/
def decode_loopAux (oracle : LDACcpp.LdacOracle) :
    Nat → List Nat → Nat → Nat
  | 0, _, total => total
  | fuel + 1, frame, total =>
    if frame.length = 0 then total
    else
      match oracle frame with
      | .err =>
          let resync_off := find_sync_byte (frame.drop 1)
          if frame.length - 1 ≤ resync_off then total
          else decode_loopAux oracle fuel (frame.drop (1 + resync_off)) total
      | .ok bytes_used frameSamples channels =>
          if bytes_used ≤ 0 then total
          else if frame.length < bytes_used.toNat then total
          else
            let total2 := total + frameSamples * channels
            if 32768 ≤ total2 then total2
            else decode_loopAux oracle fuel (frame.drop bytes_used.toNat) total2

def decode_loop (oracle : LDACcpp.LdacOracle) (frame : List Nat)
    (total : Nat) : Nat :=
  decode_loopAux oracle frame.length frame total

/-- Embeds `codec_decode` (LDAC.c lines 133-231): `get_handle` (which
    claims a fresh uninitialised slot for an unknown id), the
    initialisation and length guards, RTP header strip, sync scan, decode
    loop, and the post-decode format read-back.  Returns the updated pool
    and the returned `out.len` byte count (none for the `{NULL, 0}`
    result).  This variant performs no sequence tracking at all. -/
def codec_decode (oracle : LDACcpp.LdacOracle)
    (post_sample_rate post_channels : Nat) (pool : List Slot) (id : Nat)
    (payload : List Nat) : List Slot × Option Nat :=
  match get_handle pool id with
  | (none, pool1) => (pool1, none)
  | (some i, pool1) =>
    let h := pool1.getD i emptySlot
    if ¬ h.inited then (pool1, none)
    else if payload.length < 20 then (pool1, none)
    else
      let csrc_count := byteAt payload 0 % 16
      let rtp_hdr := 12 + 4 * csrc_count
      if payload.length ≤ rtp_hdr then (pool1, none)
      else
        let frame := payload.drop rtp_hdr
        let sync_offset := find_sync_byte frame
        if frame.length ≤ sync_offset then (pool1, none)
        else
          let total := decode_loop oracle (frame.drop sync_offset) 0
          if total = 0 then (pool1, none)
          else
            (pool1.set i { h with sample_rate := post_sample_rate,
                                  n_channels := post_channels },
             some (total * 2))

end LDACc

/-! ## Concrete fixtures used by the test-style theorems -/

/-- A minimal valid 20-byte RTP payload: CSRC count 0 (so a 12-byte
    header), big-endian sequence number in bytes 2-3, then an 8-byte codec
    region beginning with the LDAC sync byte 0xAA. -/
def gap_test_payload (seq : Nat) : List Nat :=
  [0, 0, seq / 256, seq % 256] ++ List.replicate 8 0 ++
    (170 :: List.replicate 7 0)

/-- A decoder oracle modelling an `ldacDecode` that consumes 8 bytes and
    reports a 128-sample-per-channel stereo frame on every call. -/
def stereo_oracle : LDACcpp.LdacOracle :=
  fun _ => LDACcpp.LdacDecRes.ok 8 128 2

def stereo_env : LDACcpp.Env := ⟨stereo_oracle, 96000, 2⟩

/-- The LDAC.cpp stream state right after a successful stereo open:
    sequence tracker empty, `samples_per_packet = 128 * channels`. -/
def ldac_stereo_open : LDACcpp.Stream := ⟨true, false, 0, 256, 96000, 2⟩

/-! ## Fuel sufficiency for the LTV parse loops -/

/-- Entry point for LC3.cpp's LTV loop from an arbitrary running
    configuration (the loop always advances at least two bytes per
    iteration, so fuel equal to the list length suffices). -/
def LC3cpp.parse_ltv_from (cfg : LC3cpp.Config) (ltv : List Nat) :
    LC3cpp.Config :=
  LC3cpp.parse_ltv_loopAux ltv.length cfg ltv

/-- Entry point for LC3.c's TLV loop from an arbitrary running
    configuration. -/
def LC3c.parse_lea_from (cfg : LC3c.LeaCfg) (tlv : List Nat) :
    LC3c.LeaCfg :=
  LC3c.parse_lea_loopAux tlv.length cfg tlv

theorem LC3cpp.parse_ltv_loopAux_fuel :
    ∀ f1 f2 (cfg : LC3cpp.Config) (l : List Nat),
      l.length ≤ f1 → l.length ≤ f2 →
      LC3cpp.parse_ltv_loopAux f1 cfg l = LC3cpp.parse_ltv_loopAux f2 cfg l := by
  intro f1
  induction f1 with
  | zero =>
      intro f2 cfg l h1 _
      have hl : l = [] := List.length_eq_zero.mp (Nat.le_zero.mp h1)
      subst hl
      cases f2 <;> rfl
  | succ f1 ih =>
      intro f2 cfg l h1 h2
      cases f2 with
      | zero =>
          have hl : l = [] := List.length_eq_zero.mp (Nat.le_zero.mp h2)
          subst hl
          rfl
      | succ f2 =>
          match l with
          | [] => rfl
          | [x] => rfl
          | len0 :: ty0 :: rest =>
              show LC3cpp.parse_ltv_loopAux (f1 + 1) cfg (len0 :: ty0 :: rest) =
                   LC3cpp.parse_ltv_loopAux (f2 + 1) cfg (len0 :: ty0 :: rest)
              simp only [LC3cpp.parse_ltv_loopAux]
              split
              · rfl
              · rename_i hcond
                have hlen1 : 1 ≤ u8 len0 := by omega
                apply ih
                · simp only [List.length_drop, List.length_cons] at h1 ⊢
                  omega
                · simp only [List.length_drop, List.length_cons] at h2 ⊢
                  omega

theorem LC3c.parse_lea_loopAux_fuel :
    ∀ f1 f2 (cfg : LC3c.LeaCfg) (l : List Nat),
      l.length ≤ f1 → l.length ≤ f2 →
      LC3c.parse_lea_loopAux f1 cfg l = LC3c.parse_lea_loopAux f2 cfg l := by
  intro f1
  induction f1 with
  | zero =>
      intro f2 cfg l h1 _
      have hl : l = [] := List.length_eq_zero.mp (Nat.le_zero.mp h1)
      subst hl
      cases f2 <;> rfl
  | succ f1 ih =>
      intro f2 cfg l h1 h2
      cases f2 with
      | zero =>
          have hl : l = [] := List.length_eq_zero.mp (Nat.le_zero.mp h2)
          subst hl
          rfl
      | succ f2 =>
          match l with
          | [] => rfl
          | [x] => rfl
          | len0 :: ty0 :: rest =>
              show LC3c.parse_lea_loopAux (f1 + 1) cfg (len0 :: ty0 :: rest) =
                   LC3c.parse_lea_loopAux (f2 + 1) cfg (len0 :: ty0 :: rest)
              simp only [LC3c.parse_lea_loopAux]
              split
              · rfl
              · apply ih
                · simp only [List.length_drop, List.length_cons] at h1 ⊢
                  omega
                · simp only [List.length_drop, List.length_cons] at h2 ⊢
                  omega

/-! ## Helper lemmas about the LTV parsers -/

theorem parse_ltv_config_octets_only (k : Nat) (v : List Nat)
    (hk : k ≤ 254) (hv : v.length = k) :
    (LC3cpp.parse_ltv_config ((1 + k) :: 4 :: v)).sample_rate_hz = 48000 ∧
    (LC3cpp.parse_ltv_config ((1 + k) :: 4 :: v)).frame_duration_us = 10000 ∧
    (LC3cpp.parse_ltv_config ((1 + k) :: 4 :: v)).channels = 1 := by
  have h1k : (1 + k) % 256 = 1 + k := Nat.mod_eq_of_lt (by omega)
  have hdrop : v.drop k = [] := by rw [← hv]; exact List.drop_length v
  simp only [LC3cpp.parse_ltv_config, List.length_cons, hv]
  simp only [LC3cpp.parse_ltv_loopAux, u8, h1k, hv]
  have hno : ¬ (1 + k = 0 ∨ k + 1 < 1 + k) := by omega
  rw [if_neg hno]
  simp only [Nat.add_sub_cancel_left, hdrop]
  norm_num
  split_ifs <;>
    simp [LC3cpp.parse_ltv_loopAux, LC3cpp.config_set_defaults]

theorem parse_lea_configuration_octets_only (k : Nat) (v : List Nat)
    (hk : k ≤ 254) (hv : v.length = k) :
    (LC3c.parse_lea_configuration ((1 + k) :: 4 :: v)).sample_rate_hz = 48000 ∧
    (LC3c.parse_lea_configuration ((1 + k) :: 4 :: v)).frame_duration_us = 10000 ∧
    (LC3c.parse_lea_configuration ((1 + k) :: 4 :: v)).channels = 1 := by
  have h1k : (1 + k) % 256 = 1 + k := Nat.mod_eq_of_lt (by omega)
  have hlen : (4 :: v).length = 1 + k := by simp [hv]; omega
  have hdrop : (4 :: v).drop (1 + k) = [] := by
    rw [← hlen]; exact List.drop_length _
  simp only [LC3c.parse_lea_configuration, List.length_cons, hv]
  simp only [LC3c.parse_lea_loopAux, u8, h1k, hv, hdrop]
  have hno : ¬ (k + 1 < 1 + k) := by omega
  rw [if_neg hno]
  norm_num
  split_ifs <;>
    simp [LC3c.parse_lea_loopAux, LC3c.lea_defaults]

theorem parse_ltv_from_skip_unknown (cfg : LC3cpp.Config) (k t : Nat)
    (v tail : List Nat) (hk : k ≤ 254) (hv : v.length = k)
    (ht1 : u8 t ≠ 1) (ht2 : u8 t ≠ 2) (ht3 : u8 t ≠ 3) (ht4 : u8 t ≠ 4) :
    LC3cpp.parse_ltv_from cfg ((1 + k) :: t :: (v ++ tail)) =
    LC3cpp.parse_ltv_from cfg tail := by
  have h1k : u8 (1 + k) = 1 + k := Nat.mod_eq_of_lt (by omega)
  have hdrop : (v ++ tail).drop (1 + k - 1) = tail := by
    simp only [Nat.add_sub_cancel_left]
    rw [← hv]; exact List.drop_left v tail
  have hlen : ((1 + k) :: t :: (v ++ tail)).length =
      (k + tail.length + 1) + 1 := by
    simp [hv]
  rw [LC3cpp.parse_ltv_from, hlen]
  have hno : ¬ (u8 (1 + k) = 0 ∨ (v ++ tail).length + 1 < u8 (1 + k)) := by
    rw [h1k]
    simp only [List.length_append, hv]
    omega
  rw [LC3cpp.parse_ltv_loopAux]
  rw [if_neg hno]
  simp only [h1k, if_neg ht1, if_neg ht2, if_neg ht3, if_neg ht4, hdrop]
  rw [LC3cpp.parse_ltv_from]
  exact LC3cpp.parse_ltv_loopAux_fuel (k + tail.length + 1) tail.length cfg
    tail (by omega) (le_refl _)

theorem parse_lea_from_skip_unknown (cfg : LC3c.LeaCfg) (k t : Nat)
    (v tail : List Nat) (hk : k ≤ 254) (hv : v.length = k)
    (ht1 : u8 t ≠ 1) (ht2 : u8 t ≠ 2) (ht3 : u8 t ≠ 3) (ht4 : u8 t ≠ 4) :
    LC3c.parse_lea_from cfg ((1 + k) :: t :: (v ++ tail)) =
    LC3c.parse_lea_from cfg tail := by
  have h1k : u8 (1 + k) = 1 + k := Nat.mod_eq_of_lt (by omega)
  have hdrop : (t :: (v ++ tail)).drop (1 + k) = tail := by
    have : (t :: (v ++ tail)).drop (1 + k) = (v ++ tail).drop k := by
      simp [Nat.add_comm 1 k, List.drop_succ_cons]
    rw [this, ← hv]
    exact List.drop_left v tail
  have hlen : ((1 + k) :: t :: (v ++ tail)).length =
      (k + tail.length + 1) + 1 := by
    simp [hv]
  rw [LC3c.parse_lea_from, hlen]
  have hno : ¬ ((v ++ tail).length + 1 < u8 (1 + k)) := by
    rw [h1k]
    simp only [List.length_append, hv]
    omega
  rw [LC3c.parse_lea_loopAux]
  rw [if_neg hno]
  simp only [h1k, if_neg ht1, if_neg ht2, if_neg ht3, if_neg ht4, hdrop]
  rw [LC3c.parse_lea_from]
  exact LC3c.parse_lea_loopAux_fuel (k + tail.length + 1) tail.length cfg
    tail (by omega) (le_refl _)

/-! ## Claim C5 — LC3 frame-duration byte mapping -/

/-- Claim C5 counterexample: the claim says byte value 0 maps to 7500 us
    and every other byte value maps to 10000 us.  The code
    (`duration_code_to_us` in LC3.cpp, and the identical inline test in
    LC3.c's `parse_lea_configuration`) maps value 1 to 10000 us and every
    other value — including 2 — to 7500 us.  At byte value 2 the claim
    requires 10000 but both parsers yield 7500. -/
theorem C5_counterexample :
    LC3cpp.duration_code_to_us 2 = 7500 ∧
    spec_duration_code_to_us 2 = 10000 ∧
    (LC3cpp.parse_ltv_config [2, 2, 2]).frame_duration_us = 7500 ∧
    (LC3c.parse_lea_configuration [2, 2, 2]).frame_duration_us = 7500 ∧
    LC3cpp.duration_code_to_us 2 ≠ spec_duration_code_to_us 2 := by
  decide

/-- Claim C5 (amended): for every LC3 LTV frame-duration entry, the
    one-byte value 1 maps to a frame duration of 10000 microseconds and
    every other byte value (including 0) maps to 7500 microseconds — in
    both the LC3.cpp and the LC3.c configuration parsers. -/
theorem C5_frame_duration_mapping (c : Nat) (hc : c ≤ 255) :
    (LC3cpp.parse_ltv_config [2, 2, c]).frame_duration_us
      = (if c = 1 then 10000 else 7500) ∧
    (LC3c.parse_lea_configuration [2, 2, c]).frame_duration_us
      = (if c = 1 then 10000 else 7500) := by
  have hu : c % 256 = c := Nat.mod_eq_of_lt (by omega)
  constructor
  · simp [LC3cpp.parse_ltv_config, LC3cpp.parse_ltv_loopAux,
          LC3cpp.config_set_defaults, u8, byteAt, LC3cpp.duration_code_to_us,
          hu]
  · simp [LC3c.parse_lea_configuration, LC3c.parse_lea_loopAux,
          LC3c.lea_defaults, u8, byteAt, hu]

theorem C5_witness :
    (0 : Nat) ≤ 255 ∧
    (LC3cpp.parse_ltv_config [2, 2, 0]).frame_duration_us = 7500 ∧
    (LC3c.parse_lea_configuration [2, 2, 0]).frame_duration_us = 7500 := by
  have h := C5_frame_duration_mapping 0 (by decide)
  refine ⟨by decide, ?_, ?_⟩
  · simpa using h.1
  · simpa using h.2

/-! ## Claim C6 — LTV default fill and unknown-type skip -/

/-- Claim C6: an LC3 codec-specific configuration whose LTV block contains
    only an octets-per-codec-frame entry (type 4, any value length) parses
    with all unset fields at the documented defaults — 48000 Hz, 10000 us,
    1 channel — in both the LC3.cpp and the LC3.c parsers; and an LTV
    entry with an unrecognized type is skipped without failing the parse
    (the parse of the remaining entries is unaffected), again in both
    parsers. -/
theorem C6_ltv_default_fill :
    (∀ k v, k ≤ 254 → List.length v = k →
      ((LC3cpp.parse_ltv_config ((1 + k) :: 4 :: v)).sample_rate_hz = 48000 ∧
       (LC3cpp.parse_ltv_config ((1 + k) :: 4 :: v)).frame_duration_us = 10000 ∧
       (LC3cpp.parse_ltv_config ((1 + k) :: 4 :: v)).channels = 1) ∧
      ((LC3c.parse_lea_configuration ((1 + k) :: 4 :: v)).sample_rate_hz = 48000 ∧
       (LC3c.parse_lea_configuration ((1 + k) :: 4 :: v)).frame_duration_us = 10000 ∧
       (LC3c.parse_lea_configuration ((1 + k) :: 4 :: v)).channels = 1)) ∧
    (∀ cfg k t v tail, k ≤ 254 → List.length v = k →
      u8 t ≠ 1 → u8 t ≠ 2 → u8 t ≠ 3 → u8 t ≠ 4 →
      LC3cpp.parse_ltv_from cfg ((1 + k) :: t :: (v ++ tail)) =
        LC3cpp.parse_ltv_from cfg tail) ∧
    (∀ cfg k t v tail, k ≤ 254 → List.length v = k →
      u8 t ≠ 1 → u8 t ≠ 2 → u8 t ≠ 3 → u8 t ≠ 4 →
      LC3c.parse_lea_from cfg ((1 + k) :: t :: (v ++ tail)) =
        LC3c.parse_lea_from cfg tail) := by
  refine ⟨?_, ?_, ?_⟩
  · intro k v hk hv
    exact ⟨parse_ltv_config_octets_only k v hk hv,
           parse_lea_configuration_octets_only k v hk hv⟩
  · intro cfg k t v tail hk hv ht1 ht2 ht3 ht4
    exact parse_ltv_from_skip_unknown cfg k t v tail hk hv ht1 ht2 ht3 ht4
  · intro cfg k t v tail hk hv ht1 ht2 ht3 ht4
    exact parse_lea_from_skip_unknown cfg k t v tail hk hv ht1 ht2 ht3 ht4

theorem C6_witness :
    ((LC3cpp.parse_ltv_config [2, 4, 40]).sample_rate_hz = 48000 ∧
     (LC3cpp.parse_ltv_config [2, 4, 40]).frame_duration_us = 10000 ∧
     (LC3cpp.parse_ltv_config [2, 4, 40]).channels = 1) ∧
    ((LC3c.parse_lea_configuration [2, 4, 40]).sample_rate_hz = 48000 ∧
     (LC3c.parse_lea_configuration [2, 4, 40]).frame_duration_us = 10000 ∧
     (LC3c.parse_lea_configuration [2, 4, 40]).channels = 1) ∧
    LC3cpp.parse_ltv_from LC3cpp.config_set_defaults [2, 9, 40, 2, 2, 1] =
      LC3cpp.parse_ltv_from LC3cpp.config_set_defaults [2, 2, 1] ∧
    LC3c.parse_lea_from LC3c.lea_defaults [2, 9, 40, 2, 2, 1] =
      LC3c.parse_lea_from LC3c.lea_defaults [2, 2, 1] := by
  have h0 := (C6_ltv_default_fill.1 1 [40] (by decide) (by decide))
  have h1 := C6_ltv_default_fill.2.1 LC3cpp.config_set_defaults 1 9 [40]
    [2, 2, 1] (by decide) (by decide) (by decide) (by decide) (by decide)
    (by decide)
  have h2 := C6_ltv_default_fill.2.2 LC3c.lea_defaults 1 9 [40]
    [2, 2, 1] (by decide) (by decide) (by decide) (by decide) (by decide)
    (by decide)
  exact ⟨by simpa using h0.1, by simpa using h0.2, by simpa using h1,
         by simpa using h2⟩

/-- Feed a list of RTP sequence numbers to an LDAC.cpp stream, one
    `gap_test_payload` per call, collecting each call's `StepOut`. -/
def ldac_run (env : LDACcpp.Env) (st : LDACcpp.Stream) :
    List Nat → List LDACcpp.StepOut
  | [] => []
  | s :: rest =>
    let o := LDACcpp.codec_decode env st (gap_test_payload s)
    o :: ldac_run env o.state rest

/-- Default `StepOut` used as the out-of-range value for list indexing in
    the test-style theorems (never actually selected). -/
def noStep : LDACcpp.StepOut := ⟨ldac_stereo_open, 0, 0, none⟩

/-! ## Claim C1 — gap size and the samples-per-packet estimate -/

/-- Claim C1 counterexample: on a stereo LDAC.cpp stream fed sequence
    numbers [0, 1, 5], the second call decodes 256 samples, but the third
    call reports `missing = 384 = 3 * (256 / 2)`, not `3 * 256`: the
    running estimate is the decoded sample count divided by the stream's
    channel count (`samples_per_packet = total_samples / channels`), not
    the decoded sample count itself as the claim states. -/
theorem C1_counterexample :
    ((ldac_run stereo_env ldac_stereo_open [0, 1, 5]).getD 1 noStep).total
      = 256 ∧
    ((ldac_run stereo_env ldac_stereo_open [0, 1, 5]).getD 2 noStep).missing
      = 384 ∧
    ((ldac_run stereo_env ldac_stereo_open [0, 1, 5]).getD 2 noStep).missing
      ≠ 3 *
        ((ldac_run stereo_env ldac_stereo_open [0, 1, 5]).getD 1 noStep).total
    := by
  decide

set_option maxHeartbeats 1600000 in
/-- Claim C1 (amended): for every LDAC.cpp stream whose tracker has
    recorded a previous frame, a decode call whose normalized 16-bit delta
    d exceeds 1 computes `missing = (d - 1) * samples_per_packet` (as a
    uint32); after every successful decode the estimate is updated to the
    decoded sample count divided by the stream's channel count (not the
    decoded sample count itself); hence feeding [0, 1, 5] on a stereo
    stream whose second call decodes 256 samples makes the third call
    report 384 = 3 * (256 / 2). -/
theorem C1_gap_estimate :
    (∀ (env : LDACcpp.Env) (st : LDACcpp.Stream) (payload : List Nat),
      st.inited = true → st.has_last_seq = true → 20 ≤ payload.length →
      1 < normalize_diff ((rtp_seq_of payload : Int) - st.last_rtp_seq) →
      (LDACcpp.codec_decode env st payload).missing =
        ((normalize_diff ((rtp_seq_of payload : Int) - st.last_rtp_seq)
            - 1).toNat * st.samples_per_packet) % 2 ^ 32) ∧
    (∀ (env : LDACcpp.Env) (st : LDACcpp.Stream) (payload : List Nat),
      0 < (LDACcpp.codec_decode env st payload).total →
      (LDACcpp.codec_decode env st payload).state.samples_per_packet =
        (LDACcpp.codec_decode env st payload).total / st.channels) ∧
    (((ldac_run stereo_env ldac_stereo_open [0, 1, 5]).getD 1 noStep).total
        = 256 ∧
     ((ldac_run stereo_env ldac_stereo_open [0, 1, 5]).getD 2 noStep).missing
        = 3 * (256 / 2)) := by
  refine ⟨?_, ?_, by decide⟩
  · intro env st payload h1 h2 h3 h4
    unfold LDACcpp.codec_decode
    simp only [h1, h2, if_pos h4]
    split_ifs
    all_goals first
      | omega
      | simp_all
  · intro env st payload h
    unfold LDACcpp.codec_decode at h ⊢
    simp only [apply_ite LDACcpp.StepOut.total,
               apply_ite LDACcpp.StepOut.state,
               apply_ite LDACcpp.Stream.samples_per_packet] at h ⊢
    split_ifs at h ⊢ <;> simp_all

theorem C1_witness :
    (LDACcpp.codec_decode stereo_env ⟨true, true, 0, 128, 48000, 2⟩
        (gap_test_payload 5)).missing = 512 ∧
    (LDACcpp.codec_decode stereo_env ldac_stereo_open
        (gap_test_payload 0)).state.samples_per_packet = 128 := by
  constructor
  · have h := C1_gap_estimate.1 stereo_env ⟨true, true, 0, 128, 48000, 2⟩
      (gap_test_payload 5) rfl rfl (by decide) (by decide)
    exact h.trans (by decide)
  · have h := C1_gap_estimate.2.1 stereo_env ldac_stereo_open
      (gap_test_payload 0) (by decide)
    exact h.trans (by decide)

/-! ## Claim C2 — 16-bit rollover normalization -/

/-- Claim C2 counterexample: the claim says the delta is normalized into
    the half-open range (-32768, 32768] by a single ±65536 adjustment
    whenever it falls outside that range.  At `d = s - last = 0 - 32768 =
    -32768` (which is outside (-32768, 32768]) the code applies no
    adjustment: `normalize_diff` leaves -32768, so the result is not in
    (-32768, 32768], and the tracker treats the frame as a duplicate
    (missing = 0) where the claimed normalization (+65536, giving 32768)
    would declare a 32767-packet gap. -/
theorem C2_counterexample :
    normalize_diff ((0 : Int) - 32768) = -32768 ∧
    ¬ (-32768 < normalize_diff ((0 : Int) - 32768) ∧
        normalize_diff ((0 : Int) - 32768) ≤ 32768) ∧
    spec_normalize_diff ((0 : Int) - 32768) = 32768 ∧
    (LDACcpp.codec_decode stereo_env ⟨true, true, 32768, 100, 48000, 2⟩
        (gap_test_payload 0)).missing = 0 := by
  decide

/-- Claim C2 (amended): the signed difference is normalized into the
    closed range [-32768, 32768] by at most one ±65536 adjustment (applied
    exactly when d < -32768 or d > 32768), and feeding the sequence
    numbers [65534, 65535, 0, 1] to an LDAC.cpp stream reports zero
    missing samples on every call — the 65535 → 0 wrap is contiguous. -/
theorem C2_wraparound :
    (∀ d : Int, -65535 ≤ d → d ≤ 65535 →
      (-32768 ≤ normalize_diff d ∧ normalize_diff d ≤ 32768) ∧
      (normalize_diff d = d ∨ normalize_diff d = d + 65536 ∨
        normalize_diff d = d - 65536)) ∧
    (ldac_run stereo_env ldac_stereo_open [65534, 65535, 0, 1]).map
        LDACcpp.StepOut.missing = [0, 0, 0, 0] := by
  constructor
  · intro d h1 h2
    unfold normalize_diff
    split_ifs <;> omega
  · decide

theorem C2_witness :
    (-65535 : Int) ≤ -40000 ∧ (-40000 : Int) ≤ 65535 ∧
    ((-32768 ≤ normalize_diff (-40000) ∧ normalize_diff (-40000) ≤ 32768) ∧
      (normalize_diff (-40000) = -40000 ∨
        normalize_diff (-40000) = -40000 + 65536 ∨
        normalize_diff (-40000) = -40000 - 65536)) := by
  exact ⟨by decide, by decide,
         C2_wraparound.1 (-40000) (by decide) (by decide)⟩

/-! ## Claim C3 — handling of non-positive sequence deltas -/

/-- A minimal 12-byte RTP payload (CSRC count 0) with a big-endian
    sequence number in bytes 2-3, for the AAC decode step. -/
def aac_test_payload (seq : Nat) : List Nat :=
  [0, 0, seq / 256, seq % 256] ++ List.replicate 8 0

/-- An FDK-AAC loop summary that would decode 2048 samples if the decode
    stage were reached. -/
def aac_rich_oracle : AACcpp.AacOracle := fun _ => ⟨2048, 1, 1024⟩

/-- Claim C3 counterexample: AAC.cpp is a Classic 16-bit RTP tracker, yet
    on a non-positive normalized delta (state last = 5, incoming s = 4) it
    returns before decoding — no host callback even though the decoder
    would have produced 2048 samples — and leaves `last_rtp_seq` at 5
    instead of updating it to 4.  This contradicts the claim that every
    Classic 16-bit RTP tracker "reports no gap, still proceeds to decode
    the frame, and updates last_value to s" on d ≤ 0. -/
theorem C3_counterexample :
    (AACcpp.codec_decode aac_rich_oracle ⟨true, true, true, 5, 1, 1024⟩
        (aac_test_payload 4)).callback = none ∧
    (AACcpp.codec_decode aac_rich_oracle ⟨true, true, true, 5, 1, 1024⟩
        (aac_test_payload 4)).state.last_rtp_seq = 5 ∧
    (5 : Nat) ≠ 4 ∧
    normalize_diff ((rtp_seq_of (aac_test_payload 4) : Int) - 5) ≤ 0 := by
  decide

/-- Claim C3 (amended): the two Classic 16-bit RTP trackers disagree on a
    non-positive normalized delta, and the LE-Audio LC3 path has no delta
    check at all.  (1) LDAC.cpp reports no gap, proceeds to decode exactly
    as if the frame were the stream's first, and updates `last_rtp_seq` to
    s (the whole call result equals the result on the same state with the
    tracker cleared).  (2) AAC.cpp drops the frame without decode and
    without updating `last_rtp_seq` (the call is a complete no-op).
    (3) LC3.cpp decodes every nonempty SDU and unconditionally records the
    host sequence number, whatever its relation to the previous one. -/
theorem C3_nonpositive_delta :
    (∀ (env : LDACcpp.Env) (st : LDACcpp.Stream) (payload : List Nat),
      st.inited = true → st.has_last_seq = true → 20 ≤ payload.length →
      normalize_diff ((rtp_seq_of payload : Int) - st.last_rtp_seq) ≤ 0 →
      LDACcpp.codec_decode env st payload =
        LDACcpp.codec_decode env { st with has_last_seq := false } payload ∧
      (LDACcpp.codec_decode env st payload).missing = 0 ∧
      (LDACcpp.codec_decode env st payload).state.last_rtp_seq =
        rtp_seq_of payload) ∧
    (∀ (oracle : AACcpp.AacOracle) (st : AACcpp.Stream) (payload : List Nat),
      st.inited = true → st.has_decoder = true → 12 ≤ payload.length →
      st.has_last_seq = true →
      normalize_diff ((rtp_seq_of payload : Int) - st.last_rtp_seq) ≤ 0 →
      AACcpp.codec_decode oracle st payload = ⟨st, 0, none⟩) ∧
    (∀ (st : LC3cpp.Stream) (payload : List Nat) (seq : Nat),
      payload.length ≠ 0 →
      LC3cpp.codec_decode st payload seq =
        ({ st with last_seq := seq, have_seq := true },
         some ⟨some st.pcm_buffer_bytes, 0⟩,
         LC3cpp.channel_feeds st.config.channels st.config.octets_per_frame
           payload.length)) := by
  refine ⟨?_, ?_, ?_⟩
  · intro env st payload h1 h2 h3 h4
    obtain ⟨si, sh, sl, sp, sr, sc⟩ := st
    simp only at h1 h2 h4
    subst h1
    subst h2
    have h5 : ¬ (1 < normalize_diff ((rtp_seq_of payload : Int) - sl)) := by
      omega
    have h20 : ¬ payload.length < 20 := by omega
    refine ⟨?_, ?_, ?_⟩
    · unfold LDACcpp.codec_decode
      simp [h5]
      simp only [if_neg h20]
    · unfold LDACcpp.codec_decode
      simp only [apply_ite LDACcpp.StepOut.missing]
      simp [h5, h20]
    · unfold LDACcpp.codec_decode
      simp only [apply_ite LDACcpp.StepOut.state,
                 apply_ite LDACcpp.Stream.last_rtp_seq]
      simp [h5, h20]
  · intro oracle st payload h1 h2 h3 h4 h5
    unfold AACcpp.codec_decode
    simp [h1, h2, h4, h5]
  · intro st payload seq h
    unfold LC3cpp.codec_decode
    simp [h]

theorem C3_witness :
    (LDACcpp.codec_decode stereo_env ⟨true, true, 5, 128, 48000, 2⟩
        (gap_test_payload 5)).callback = some ⟨some 512, 0⟩ ∧
    (LDACcpp.codec_decode stereo_env ⟨true, true, 5, 128, 48000, 2⟩
        (gap_test_payload 5)).state.last_rtp_seq = 5 ∧
    (AACcpp.codec_decode aac_rich_oracle ⟨true, true, true, 7, 1, 1024⟩
        (aac_test_payload 6)) = ⟨⟨true, true, true, 7, 1, 1024⟩, 0, none⟩ ∧
    (LC3cpp.codec_decode ⟨⟨48000, 10000, 40, 2⟩, 480, 1920, 0, false⟩
        [1, 2, 3] 99).1.last_seq = 99 := by
  refine ⟨?_, ?_, ?_, ?_⟩
  · have h := (C3_nonpositive_delta.1 stereo_env ⟨true, true, 5, 128, 48000, 2⟩
      (gap_test_payload 5) rfl rfl (by decide) (by decide)).1
    rw [h]
    decide
  · have h := (C3_nonpositive_delta.1 stereo_env ⟨true, true, 5, 128, 48000, 2⟩
      (gap_test_payload 5) rfl rfl (by decide) (by decide)).2.2
    exact h.trans (by decide)
  · exact C3_nonpositive_delta.2.1 aac_rich_oracle ⟨true, true, true, 7, 1, 1024⟩
      (aac_test_payload 6) rfl rfl (by decide) rfl (by decide)
  · have h := C3_nonpositive_delta.2.2 ⟨⟨48000, 10000, 40, 2⟩, 480, 1920, 0, false⟩
      [1, 2, 3] 99 (by decide)
    rw [h]

/-! ## Claim C4 — gap information and host callbacks -/

/-- A 20-byte payload whose first byte declares a CSRC count of 2, making
    the RTP header length 20 = the payload length, so
    `get_rtp_header_length` fails; bytes 2-3 carry sequence number 5. -/
def rtp_fail_payload : List Nat := [2, 0, 0, 5] ++ List.replicate 16 0

/-- An environment whose decoder errors on every `ldacDecode` call. -/
def err_env : LDACcpp.Env := ⟨fun _ => LDACcpp.LdacDecRes.err, 0, 0⟩

/-- Claim C4 counterexample: a call that computes a nonzero missing-sample
    count (sequence jump 0 → 5, missing = 4 × 128 = 512) but fails
    RTP-header validation performs no host callback at all — the gap
    information is silently dropped, contradicting the claim that the
    callback is invoked on every call with a nonzero computed gap. -/
theorem C4_counterexample :
    (LDACcpp.codec_decode stereo_env ⟨true, true, 0, 128, 48000, 2⟩
        rtp_fail_payload).missing = 512 ∧
    (LDACcpp.codec_decode stereo_env ⟨true, true, 0, 128, 48000, 2⟩
        rtp_fail_payload).callback = none ∧
    get_rtp_header_length rtp_fail_payload = 0 := by
  decide

/-- Claim C4 (amended): LDAC.cpp delivers gap information only on calls
    that get past RTP-header validation and the sync scan.  (1) A call
    failing RTP-header validation performs no callback, whatever missing
    count it computed.  (2) A call whose post-RTP bytes contain no sync
    byte performs no callback, whatever missing count it computed.
    (3) A call that decodes samples delivers them together with the
    missing count.  (4) A call that reaches the decode stage but decodes
    nothing delivers a null-PCM callback carrying the nonzero missing
    count. -/
theorem C4_gap_delivery :
    (∀ (env : LDACcpp.Env) (st : LDACcpp.Stream) (payload : List Nat),
      st.inited = true → 20 ≤ payload.length →
      get_rtp_header_length payload = 0 →
      (LDACcpp.codec_decode env st payload).callback = none) ∧
    (∀ (env : LDACcpp.Env) (st : LDACcpp.Stream) (payload : List Nat),
      st.inited = true → 20 ≤ payload.length →
      (∀ b ∈ payload.drop (get_rtp_header_length payload), u8 b ≠ 170) →
      (LDACcpp.codec_decode env st payload).callback = none) ∧
    (∀ (env : LDACcpp.Env) (st : LDACcpp.Stream) (payload : List Nat),
      0 < (LDACcpp.codec_decode env st payload).total →
      (LDACcpp.codec_decode env st payload).callback =
        some ⟨some ((LDACcpp.codec_decode env st payload).total * 2),
              (LDACcpp.codec_decode env st payload).missing⟩) ∧
    (∀ (env : LDACcpp.Env) (st : LDACcpp.Stream) (payload : List Nat),
      st.inited = true → 20 ≤ payload.length →
      get_rtp_header_length payload ≠ 0 →
      find_sync_byte (payload.drop (get_rtp_header_length payload)) <
        (payload.drop (get_rtp_header_length payload)).length →
      (LDACcpp.codec_decode env st payload).total = 0 →
      0 < (LDACcpp.codec_decode env st payload).missing →
      (LDACcpp.codec_decode env st payload).callback =
        some ⟨none, (LDACcpp.codec_decode env st payload).missing⟩) := by
  refine ⟨?_, ?_, ?_, ?_⟩
  · intro env st payload h1 h2 h3
    unfold LDACcpp.codec_decode
    simp only [] 
    rw [if_neg (by simp [h1]), if_neg (by omega), if_pos h3]
  · intro env st payload h1 h2 h3
    have hsync : find_sync_byte (payload.drop (get_rtp_header_length payload))
        = (payload.drop (get_rtp_header_length payload)).length :=
      (find_sync_byte_eq_length_iff _).mpr h3
    unfold LDACcpp.codec_decode
    simp only []
    rw [if_neg (by simp [h1]), if_neg (by omega)]
    by_cases h4 : get_rtp_header_length payload = 0
    · rw [if_pos h4]
    · rw [if_neg h4, if_pos (by omega)]
  · intro env st payload h
    unfold LDACcpp.codec_decode at h ⊢
    simp only [] at h ⊢
    set T := LDACcpp.ldacCpp_decode_loop env.oracle
      ((payload.drop (get_rtp_header_length payload)).drop
        (find_sync_byte (payload.drop (get_rtp_header_length payload)))) 0
    set M := (if st.has_last_seq = true then
        if 1 < normalize_diff ((rtp_seq_of payload : Int) - st.last_rtp_seq)
        then ((normalize_diff ((rtp_seq_of payload : Int) - st.last_rtp_seq)
            - 1).toNat * st.samples_per_packet) % 2 ^ 32
        else 0
      else 0)
    clear_value T M
    split_ifs at h ⊢ <;> simp_all
  · intro env st payload h1 h2 h3 h4 h5 h6
    unfold LDACcpp.codec_decode at h5 h6 ⊢
    simp only [] at h5 h6 ⊢
    set T := LDACcpp.ldacCpp_decode_loop env.oracle
      ((payload.drop (get_rtp_header_length payload)).drop
        (find_sync_byte (payload.drop (get_rtp_header_length payload)))) 0
    set M := (if st.has_last_seq = true then
        if 1 < normalize_diff ((rtp_seq_of payload : Int) - st.last_rtp_seq)
        then ((normalize_diff ((rtp_seq_of payload : Int) - st.last_rtp_seq)
            - 1).toNat * st.samples_per_packet) % 2 ^ 32
        else 0
      else 0)
    clear_value T M
    split_ifs at h5 h6 ⊢ <;> simp_all
    all_goals omega

theorem C4_witness :
    (LDACcpp.codec_decode stereo_env ⟨true, true, 0, 128, 48000, 2⟩
        rtp_fail_payload).callback = none ∧
    (LDACcpp.codec_decode stereo_env ldac_stereo_open
        (gap_test_payload 0)).callback = some ⟨some 512, 0⟩ ∧
    (LDACcpp.codec_decode err_env ⟨true, true, 0, 128, 48000, 2⟩
        (gap_test_payload 5)).callback = some ⟨none, 512⟩ := by
  refine ⟨?_, ?_, ?_⟩
  · exact C4_gap_delivery.1 stereo_env ⟨true, true, 0, 128, 48000, 2⟩
      rtp_fail_payload rfl (by decide) (by decide)
  · have h := C4_gap_delivery.2.2.1 stereo_env ldac_stereo_open
      (gap_test_payload 0) (by decide)
    exact h.trans (by decide)
  · have h := C4_gap_delivery.2.2.2 err_env ⟨true, true, 0, 128, 48000, 2⟩
      (gap_test_payload 5) rfl (by decide) (by decide) (by decide)
      (by decide) (by decide)
    exact h.trans (by decide)

/-! ## Claim C7 — sync resynchronization: progress and bounds -/

/-- A valid 20-byte RTP payload whose post-header bytes contain no LDAC
    sync marker. -/
def nosync_payload : List Nat := [0, 0, 0, 1] ++ List.replicate 16 0

/-- A 21-byte RTP payload whose codec region starts with one corrupt byte
    (5) followed by a valid sync marker and a decodable frame. -/
def corrupt_sync_payload : List Nat :=
  [0, 0, 0, 1] ++ List.replicate 8 0 ++ [5] ++ (170 :: List.replicate 7 0)

/-- An LDAC.c pool holding one opened (initialised) stream with id 7 in
    slot 0. -/
def ldacc_open_pool : List LDACc.Slot :=
  (List.replicate 16 LDACc.emptySlot).set 0 ⟨true, 7, true, 96000, 2, 0⟩

/-- Fuel-sufficiency for the LDAC.c decode loop: like LDAC.cpp's loop,
    every continuing iteration strictly shortens the frame, so any fuel
    covering the remaining byte count computes the loop's exit value. -/
theorem LDACc.decode_loopAux_fuel (oracle : LDACcpp.LdacOracle) :
    ∀ f1 f2 frame total, frame.length ≤ f1 → frame.length ≤ f2 →
      LDACc.decode_loopAux oracle f1 frame total =
      LDACc.decode_loopAux oracle f2 frame total := by
  intro f1
  induction f1 with
  | zero =>
      intro f2 frame total h1 _
      have hf : frame.length = 0 := Nat.le_zero.mp h1
      cases f2 with
      | zero => rfl
      | succ f2 =>
          simp [LDACc.decode_loopAux, hf]
  | succ f1 ih =>
      intro f2 frame total h1 h2
      cases f2 with
      | zero =>
          have hf : frame.length = 0 := Nat.le_zero.mp h2
          simp [LDACc.decode_loopAux, hf]
      | succ f2 =>
          show LDACc.decode_loopAux oracle (f1 + 1) frame total =
               LDACc.decode_loopAux oracle (f2 + 1) frame total
          simp only [LDACc.decode_loopAux]
          split
          · rfl
          · rename_i hcond
            have hpos : 0 < frame.length := by omega
            split
            · split
              · rfl
              · apply ih
                · simp only [List.length_drop]; omega
                · simp only [List.length_drop]; omega
            · split
              · rfl
              · split
                · rfl
                · rename_i hbc hlen
                  split
                  · rfl
                  · apply ih
                    · simp only [List.length_drop]; omega
                    · simp only [List.length_drop]; omega

/-- Claim C7, for both LDAC variants: (1) the sync scan returns an offset
    within the buffer, and when it hits, it hits the first 0xAA byte (no
    out-of-bounds index is produced); (2) an LDAC.cpp payload with no sync
    marker anywhere yields zero decoded samples and delivers no PCM;
    (3) an LDAC.cpp payload with one corrupt leading byte before a valid
    sync marker decodes exactly the bytes from the marker on; (4) each
    resync step strictly decreases the remaining byte count; (5) fuel
    equal to the remaining byte count always suffices for the LDAC.cpp
    decode loop — it terminates within `remaining` iterations; and the
    LDAC.c pipeline (`codec_decode`, lines 163-218) satisfies the same
    properties: (6) a payload with no sync marker returns the empty
    `{NULL, 0}` result; (7) one corrupt leading byte before a marker
    leaves exactly the from-marker suffix to its decode loop, whose
    output is returned; (8) fuel equal to the remaining byte count
    suffices for the LDAC.c loop. -/
theorem C7_resync_bounded :
    (∀ l : List Nat, find_sync_byte l ≤ l.length ∧
      (find_sync_byte l < l.length →
        u8 (l.getD (find_sync_byte l) 0) = 170 ∧
        ∀ j < find_sync_byte l, u8 (l.getD j 0) ≠ 170)) ∧
    (∀ (env : LDACcpp.Env) (st : LDACcpp.Stream) (payload : List Nat),
      (∀ b ∈ payload.drop (get_rtp_header_length payload), u8 b ≠ 170) →
      (LDACcpp.codec_decode env st payload).total = 0 ∧
      ((LDACcpp.codec_decode env st payload).callback = none ∨
       (LDACcpp.codec_decode env st payload).callback =
         some ⟨none, (LDACcpp.codec_decode env st payload).missing⟩)) ∧
    (∀ (env : LDACcpp.Env) (st : LDACcpp.Stream) (payload : List Nat)
       (c : Nat) (rest : List Nat),
      st.inited = true → 20 ≤ payload.length →
      get_rtp_header_length payload ≠ 0 →
      payload.drop (get_rtp_header_length payload) = c :: 170 :: rest →
      u8 c ≠ 170 →
      (LDACcpp.codec_decode env st payload).total =
        LDACcpp.ldacCpp_decode_loop env.oracle (170 :: rest) 0) ∧
    (∀ (frame : List Nat) (r : Nat), frame ≠ [] →
      (frame.drop (1 + r)).length < frame.length) ∧
    (∀ (oracle : LDACcpp.LdacOracle) (f : Nat) (frame : List Nat)
       (total : Nat), frame.length ≤ f →
      LDACcpp.ldacCpp_decode_loopAux oracle f frame total =
        LDACcpp.ldacCpp_decode_loop oracle frame total) ∧
    (∀ (oracle : LDACcpp.LdacOracle) (r c : Nat) (pool : List LDACc.Slot)
       (id : Nat) (payload : List Nat),
      (∀ b ∈ payload.drop (12 + 4 * (byteAt payload 0 % 16)), u8 b ≠ 170) →
      (LDACc.codec_decode oracle r c pool id payload).2 = none) ∧
    (∀ (oracle : LDACcpp.LdacOracle) (r ch : Nat) (pool : List LDACc.Slot)
       (id i c : Nat) (rest payload : List Nat),
      List.findIdx? (fun s => s.in_use && s.stream_id == id) pool = some i →
      (pool.getD i LDACc.emptySlot).inited = true →
      20 ≤ payload.length →
      12 + 4 * (byteAt payload 0 % 16) < payload.length →
      payload.drop (12 + 4 * (byteAt payload 0 % 16)) = c :: 170 :: rest →
      u8 c ≠ 170 →
      (LDACc.codec_decode oracle r ch pool id payload).2 =
        (if LDACc.decode_loop oracle (170 :: rest) 0 = 0 then none
         else some (LDACc.decode_loop oracle (170 :: rest) 0 * 2))) ∧
    (∀ (oracle : LDACcpp.LdacOracle) (f : Nat) (frame : List Nat)
       (total : Nat), frame.length ≤ f →
      LDACc.decode_loopAux oracle f frame total =
        LDACc.decode_loop oracle frame total) := by
  refine ⟨?_, ?_, ?_, ?_, ?_, ?_, ?_, ?_⟩
  · intro l
    exact ⟨find_sync_byte_le l, fun h => find_sync_byte_hit l h⟩
  · intro env st payload h3
    have hsync : find_sync_byte (payload.drop (get_rtp_header_length payload))
        = (payload.drop (get_rtp_header_length payload)).length :=
      (find_sync_byte_eq_length_iff _).mpr h3
    unfold LDACcpp.codec_decode
    simp only []
    set M := (if st.has_last_seq = true then
        if 1 < normalize_diff ((rtp_seq_of payload : Int) - st.last_rtp_seq)
        then ((normalize_diff ((rtp_seq_of payload : Int) - st.last_rtp_seq)
            - 1).toNat * st.samples_per_packet) % 2 ^ 32
        else 0
      else 0)
    clear_value M
    split_ifs <;> simp_all
  · intro env st payload c rest h1 h2 h3 hfr hc
    unfold LDACcpp.codec_decode
    simp only [hfr]
    have hc2 : ¬ c % 256 = 170 := by simpa [u8] using hc
    have hfind : find_sync_byte (c :: 170 :: rest) = 1 := by
      simp [find_sync_byte, u8, hc2]
    rw [if_neg (by simp [h1]), if_neg (by omega), if_neg h3]
    rw [hfind]
    rw [if_neg (by simp)]
    have hdrop : (c :: 170 :: rest).drop 1 = 170 :: rest := rfl
    rw [hdrop]
    split_ifs <;> simp_all
  · intro frame r h
    have : 0 < frame.length := List.length_pos.mpr h
    simp only [List.length_drop]
    omega
  · intro oracle f frame total hf
    exact LDACcpp.ldacCpp_decode_loopAux_fuel oracle f frame.length frame
      total hf (le_refl _)
  · intro oracle r c pool id payload h3
    have hsync : find_sync_byte
        (payload.drop (12 + 4 * (byteAt payload 0 % 16)))
        = (payload.drop (12 + 4 * (byteAt payload 0 % 16))).length :=
      (find_sync_byte_eq_length_iff _).mpr h3
    unfold LDACc.codec_decode LDACc.get_handle
    cases hf : List.findIdx? (fun s => s.in_use && s.stream_id == id) pool with
    | none =>
        cases hg : List.findIdx? (fun s => !s.in_use) pool with
        | none => rfl
        | some i =>
            simp only []
            split_ifs <;> simp_all
    | some i =>
        simp only []
        split_ifs <;> simp_all
  · intro oracle r ch pool id i c rest payload h0 hi h2 h3 hfr hc
    have hc2 : ¬ c % 256 = 170 := by simpa [u8] using hc
    have hfind : find_sync_byte (c :: 170 :: rest) = 1 := by
      simp [find_sync_byte, u8, hc2]
    have hi2 : (pool[i]?.getD LDACc.emptySlot).inited = true := by
      simpa [List.getD_eq_getElem?_getD] using hi
    unfold LDACc.codec_decode LDACc.get_handle
    rw [h0]
    simp only [hfr]
    rw [if_neg (by simp [hi2]), if_neg (by omega), if_neg (by omega)]
    rw [hfind]
    rw [if_neg (by simp)]
    have hdrop : (c :: 170 :: rest).drop 1 = 170 :: rest := rfl
    rw [hdrop]
    split_ifs <;> simp_all
  · intro oracle f frame total hf
    exact LDACc.decode_loopAux_fuel oracle f frame.length frame
      total hf (le_refl _)

theorem C7_witness :
    find_sync_byte [1, 2, 170] ≤ 3 ∧
    (LDACcpp.codec_decode stereo_env ldac_stereo_open nosync_payload).total
      = 0 ∧
    (LDACcpp.codec_decode stereo_env ldac_stereo_open
        corrupt_sync_payload).total = 256 ∧
    (([5, 6, 7] : List Nat).drop
        (1 + find_sync_byte (([5, 6, 7] : List Nat).drop 1))).length < 3 ∧
    LDACcpp.ldacCpp_decode_loopAux stereo_oracle 99
        (170 :: List.replicate 7 0) 0 =
      LDACcpp.ldacCpp_decode_loop stereo_oracle
        (170 :: List.replicate 7 0) 0 ∧
    (LDACc.codec_decode stereo_oracle 96000 2 ldacc_open_pool 7
        nosync_payload).2 = none ∧
    (LDACc.codec_decode stereo_oracle 96000 2 ldacc_open_pool 7
        corrupt_sync_payload).2 = some 512 ∧
    LDACc.decode_loopAux stereo_oracle 99 (170 :: List.replicate 7 0) 0 =
      LDACc.decode_loop stereo_oracle (170 :: List.replicate 7 0) 0 := by
  refine ⟨?_, ?_, ?_, ?_, ?_, ?_, ?_, ?_⟩
  · exact (C7_resync_bounded.1 [1, 2, 170]).1
  · exact (C7_resync_bounded.2.1 stereo_env ldac_stereo_open nosync_payload
      (by decide)).1
  · have h := C7_resync_bounded.2.2.1 stereo_env ldac_stereo_open
      corrupt_sync_payload 5 (List.replicate 7 0) rfl (by decide) (by decide)
      (by decide) (by decide)
    exact h.trans (by decide)
  · exact C7_resync_bounded.2.2.2.1 [5, 6, 7]
      (find_sync_byte (([5, 6, 7] : List Nat).drop 1)) (by decide)
  · exact C7_resync_bounded.2.2.2.2.1 stereo_oracle 99
      (170 :: List.replicate 7 0) 0 (by decide)
  · exact C7_resync_bounded.2.2.2.2.2.1 stereo_oracle 96000 2 ldacc_open_pool
      7 nosync_payload (by decide)
  · have h := C7_resync_bounded.2.2.2.2.2.2.1 stereo_oracle 96000 2
      ldacc_open_pool 7 0 5 (List.replicate 7 0) corrupt_sync_payload
      (by decide) (by decide) (by decide) (by decide) (by decide) (by decide)
    exact h.trans (by decide)
  · exact C7_resync_bounded.2.2.2.2.2.2.2 stereo_oracle 99
      (170 :: List.replicate 7 0) 0 (by decide)

/-! ## Pool fixtures and a list helper -/

theorem getD_set_self {α : Type} (l : List α) (i : Nat) (a d : α)
    (h : i < l.length) : (l.set i a).getD i d = a := by
  rw [List.getD_eq_getElem?_getD]
  simp [List.getElem?_set_self', h]

def ldac_good_cap : LDACcpp.MediaCodecCap := ⟨255, [45, 1, 0, 0, 170, 32]⟩

def aac_zero_cap : LDACcpp.MediaCodecCap := ⟨2, [0, 0, 0, 0, 0, 0]⟩

def aac_good_cap : LDACcpp.MediaCodecCap := ⟨2, [0, 128, 4, 0, 0, 0]⟩

def aacc_empty_pool : List AACc.Slot := List.replicate 16 AACc.emptySlot

def ldacc_empty_pool : List LDACc.Slot := List.replicate 16 LDACc.emptySlot

def lc3c_empty_pool : List LC3c.Slot := List.replicate 16 LC3c.emptySlot

/-! ## Claim C8 — resource release on open failure (AAC.c) -/

/-- Claim C8 (code bug witness): AAC.c `new_codec_stream` claims a pool
    slot via `get_handle` before validating the sample-rate bits.  With an
    all-zero codec-specific block it returns error -3, leaving the claimed
    slot marked in use (with no decoder); `codec_deinit` cannot reclaim it
    because it only frees slots whose `aac` handle is non-NULL.  With a
    valid block but a failing first `aacDecoder_SetParam` it returns
    error -5 leaving both the slot and an open decoder behind.  This
    contradicts the interface documentation "On failure: ... no resources
    must remain allocated". -/
theorem C8_open_leak :
    (AACc.new_codec_stream ⟨true, true, true⟩ aacc_empty_pool 7
        aac_zero_cap 6).error = -3 ∧
    (AACc.new_codec_stream ⟨true, true, true⟩ aacc_empty_pool 7
        aac_zero_cap 6).pool.getD 0 AACc.emptySlot =
      ⟨true, 7, false, 2 ^ 32 - 1⟩ ∧
    ((AACc.new_codec_stream ⟨true, true, true⟩ aacc_empty_pool 7
        aac_zero_cap 6).pool.any (fun s => s.in_use)) = true ∧
    ((AACc.codec_deinit
        (AACc.new_codec_stream ⟨true, true, true⟩ aacc_empty_pool 7
          aac_zero_cap 6).pool 7).any (fun s => s.in_use)) = true ∧
    (AACc.new_codec_stream ⟨true, false, true⟩ aacc_empty_pool 7
        aac_good_cap 6).error = -5 ∧
    (AACc.new_codec_stream ⟨true, false, true⟩ aacc_empty_pool 7
        aac_good_cap 6).pool.getD 0 AACc.emptySlot =
      ⟨true, 7, true, 2 ^ 32 - 1⟩ := by
  decide

/-! ## Claim C9 — capability-probe behaviour -/

def ldac_good_info : LDACcpp.CodecInfo :=
  ⟨LDACcpp.Container.AVDTP, some ldac_good_cap, 6⟩

/-- Claim C9 counterexample: LDAC.c has no probe-sentinel path.  Calling
    its `new_codec_stream` with the reserved invalid id and a valid LDAC
    configuration allocates a pool slot for the sentinel id (a session is
    created), contradicting "allocates no session and no resources". -/
theorem C9_counterexample :
    (LDACc.new_codec_stream true ldacc_empty_pool LDACcpp.BLUESPY_ID_INVALID
        ldac_good_cap 6).error = 0 ∧
    ((LDACc.new_codec_stream true ldacc_empty_pool LDACcpp.BLUESPY_ID_INVALID
        ldac_good_cap 6).pool.any (fun s => s.in_use)) = true ∧
    (LDACc.new_codec_stream true ldacc_empty_pool LDACcpp.BLUESPY_ID_INVALID
        ldac_good_cap 6).pool.getD 0 LDACc.emptySlot =
      ⟨true, LDACcpp.BLUESPY_ID_INVALID, true, 96000, 2, 2 ^ 32 - 1⟩ := by
  decide

/-- Claim C9 (amended): in the context-handle LDAC.cpp variant, a probe
    call (sentinel stream id) allocates nothing, its result does not
    depend on the allocator or decoder-library outcomes (so repeated calls
    with the same configuration return the same verdict), and its verdict
    coincides with whether a real open with available resources would
    succeed.  In the fixed-pool LDAC.c variant there is no probe path: a
    sentinel-id call claims a pool slot like any other id. -/
theorem C9_probe :
    (∀ (a d : Bool) (info : Option LDACcpp.CodecInfo),
      (LDACcpp.new_codec_stream a d LDACcpp.BLUESPY_ID_INVALID
          info).allocated = false) ∧
    (∀ (a d a2 d2 : Bool) (info : Option LDACcpp.CodecInfo),
      LDACcpp.new_codec_stream a d LDACcpp.BLUESPY_ID_INVALID info =
        LDACcpp.new_codec_stream a2 d2 LDACcpp.BLUESPY_ID_INVALID info) ∧
    (∀ (info : Option LDACcpp.CodecInfo) (id : Nat),
      id ≠ LDACcpp.BLUESPY_ID_INVALID →
      ((LDACcpp.new_codec_stream true true id info).error = 0 ↔
       (LDACcpp.new_codec_stream true true LDACcpp.BLUESPY_ID_INVALID
          info).error = 0)) ∧
    ((LDACc.new_codec_stream true ldacc_empty_pool LDACcpp.BLUESPY_ID_INVALID
        ldac_good_cap 6).pool.any (fun s => s.in_use)) = true := by
  refine ⟨?_, ?_, ?_, by decide⟩
  · intro a d info
    unfold LDACcpp.new_codec_stream
    match info with
    | none => rfl
    | some i =>
      simp only []
      cases i.cap
      · split_ifs <;> rfl
      · simp only []
        split_ifs <;> rfl
  · intro a d a2 d2 info
    unfold LDACcpp.new_codec_stream
    match info with
    | none => rfl
    | some i =>
      simp only []
      cases i.cap
      · split_ifs <;> rfl
      · simp only []
        split_ifs <;> rfl
  · intro info id hid
    unfold LDACcpp.new_codec_stream
    match info with
    | none => simp
    | some i =>
      simp only []
      cases i.cap
      · split_ifs <;> simp_all
      · simp only []
        split_ifs <;> simp_all

theorem C9_witness :
    (LDACcpp.new_codec_stream true true LDACcpp.BLUESPY_ID_INVALID
        (some ldac_good_info)).allocated = false ∧
    (LDACcpp.new_codec_stream false false LDACcpp.BLUESPY_ID_INVALID
        (some ldac_good_info)).error =
      (LDACcpp.new_codec_stream true true LDACcpp.BLUESPY_ID_INVALID
        (some ldac_good_info)).error ∧
    ((LDACcpp.new_codec_stream true true 7 (some ldac_good_info)).error = 0 ↔
     (LDACcpp.new_codec_stream true true LDACcpp.BLUESPY_ID_INVALID
        (some ldac_good_info)).error = 0) := by
  refine ⟨?_, ?_, ?_⟩
  · exact C9_probe.1 true true (some ldac_good_info)
  · exact congrArg LDACcpp.InitRet.error
      (C9_probe.2.1 false false true true (some ldac_good_info))
  · exact C9_probe.2.2.1 (some ldac_good_info) 7 (by decide)

/-! ## Claim C10 — decode on unknown ids allocates pool slots -/

/-- The LDAC.c pool after decode calls with the 16 distinct never-opened
    ids 0..15, starting from the empty pool. -/
def ldacc_filled_pool : List LDACc.Slot :=
  (List.range 16).foldl
    (fun p i => (LDACc.codec_decode err_env.oracle 0 0 p i []).1)
    ldacc_empty_pool

/-- The LC3.c pool after decode calls with the 16 distinct never-opened
    ids 0..15, starting from the empty pool. -/
def lc3c_filled_pool : List LC3c.Slot :=
  (List.range 16).foldl (fun p i => (LC3c.codec_decode p i []).1)
    lc3c_empty_pool

theorem C10_decode_allocates :
    (∀ (oracle : LDACcpp.LdacOracle) (r c : Nat) (pool : List LDACc.Slot)
       (id : Nat) (payload : List Nat) (i : Nat),
      List.findIdx? (fun s => s.in_use && s.stream_id == id) pool = none →
      List.findIdx? (fun s => !s.in_use) pool = some i →
      LDACc.codec_decode oracle r c pool id payload =
        (pool.set i ⟨true, id, false, 0, 0, 2 ^ 32 - 1⟩, none)) ∧
    (∀ (pool : List LC3c.Slot) (id : Nat) (payload : List Nat) (i : Nat),
      List.findIdx? (fun s => s.in_use && s.stream_id == id) pool = none →
      List.findIdx? (fun s => !s.in_use) pool = some i →
      LC3c.codec_decode pool id payload =
        (pool.set i { LC3c.emptySlot with in_use := true, stream_id := id },
         none, [])) ∧
    (∀ (d : Bool) (pool : List LDACc.Slot) (id : Nat),
      List.findIdx? (fun s => s.in_use && s.stream_id == id) pool = none →
      List.findIdx? (fun s => !s.in_use) pool = none →
      (LDACc.new_codec_stream d pool id ldac_good_cap 6).error = -10) ∧
    (∀ (env : LC3c.Env) (pool : List LC3c.Slot) (id : Nat)
       (config : List Nat),
      7 ≤ config.length →
      List.findIdx? (fun s => s.in_use && s.stream_id == id) pool = none →
      List.findIdx? (fun s => !s.in_use) pool = none →
      (LC3c.new_codec_stream env pool id LDACcpp.Container.CIS config).2
        = -1) ∧
    ((ldacc_filled_pool.all (fun s => s.in_use)) = true ∧
     (LDACc.new_codec_stream true ldacc_filled_pool 99 ldac_good_cap 6).error
        = -10 ∧
     (lc3c_filled_pool.all (fun s => s.in_use)) = true ∧
     (LC3c.new_codec_stream ⟨100, 480, true, true⟩ lc3c_filled_pool 99
        LDACcpp.Container.CIS (List.replicate 9 0)).2 = -1) := by
  refine ⟨?_, ?_, ?_, ?_, by decide⟩
  · intro oracle r c pool id payload i h1 h2
    have hi : i < pool.length :=
      (List.findIdx?_eq_some_iff_findIdx_eq.mp h2).1
    unfold LDACc.codec_decode LDACc.get_handle
    rw [h1, h2]
    simp only []
    rw [getD_set_self pool i _ _ hi]
    simp
  · intro pool id payload i h1 h2
    have hi : i < pool.length :=
      (List.findIdx?_eq_some_iff_findIdx_eq.mp h2).1
    unfold LC3c.codec_decode LC3c.find_or_allocate_handle
    rw [h1, h2]
    simp only []
    rw [getD_set_self pool i _ _ hi]
    simp [LC3c.emptySlot]
  · intro d pool id h1 h2
    unfold LDACc.new_codec_stream LDACc.get_handle
    rw [h1, h2]
    simp [ldac_good_cap, LDACcpp.MediaCodecCap.Media_Codec_Type,
          read_le32, byteAt, u8]
  · intro env pool id config hlen h1 h2
    unfold LC3c.new_codec_stream LC3c.find_or_allocate_handle
    rw [if_neg (by omega)]
    rw [if_neg (by simp)]
    rw [h1, h2]

theorem C10_witness :
    LDACc.codec_decode err_env.oracle 0 0 ldacc_empty_pool 42 [] =
      (ldacc_empty_pool.set 0 ⟨true, 42, false, 0, 0, 2 ^ 32 - 1⟩, none) ∧
    LC3c.codec_decode lc3c_empty_pool 42 [] =
      (lc3c_empty_pool.set 0
        { LC3c.emptySlot with in_use := true, stream_id := 42 }, none, []) ∧
    (LDACc.new_codec_stream true ldacc_filled_pool 99 ldac_good_cap 6).error
      = -10 ∧
    (LC3c.new_codec_stream ⟨100, 480, true, true⟩ lc3c_filled_pool 99
      LDACcpp.Container.CIS (List.replicate 9 0)).2 = -1 := by
  refine ⟨?_, ?_, ?_, ?_⟩
  · exact C10_decode_allocates.1 err_env.oracle 0 0 ldacc_empty_pool 42 [] 0
      (by decide) (by decide)
  · exact C10_decode_allocates.2.1 lc3c_empty_pool 42 [] 0
      (by decide) (by decide)
  · exact C10_decode_allocates.2.2.2.2.2.1
  · exact C10_decode_allocates.2.2.2.2.2.2.2

end BluespyCodecs
